import Mathlib

/-!
Verification of the goodeats meal-plan generator core.

Shallow embedding of `src/mealplan_generator.py` (the planner and grocery
aggregator) and proofs about the claims of the specification.

Embedding conventions:
* Python `float` is modelled as `ℚ` (exact arithmetic; every numeric fact used
  by a claim involves decimally-exact values, and Python's `round` half-even
  rule is modelled exactly on `ℚ`).
* Python `int` is modelled as `Int`, counts and indices as `Nat`.
* Python `dict` (insertion-ordered) is modelled as an insertion-ordered
  association list; the card repository is a `List RecipeCard` looked up by id.
* Fallible Python code (explicit `raise`, `random.randint` on an empty range,
  `random.sample` with an oversized k, `min`/`choice` on an empty sequence,
  `dict[k]` misses, division by zero, unsupported unit conversion) is modelled
  with `Except PyErr`; each raise site gets its own constructor.
* Modelled from the spec: `random.Random(seed)` (Python standard library, not
  part of this repository) is the single seeded generator of spec section 5,
  threaded through every `shuffle`/`randint`/`sample`/`choice` call in program
  order.  We model its state as a `Nat` driven by a 64-bit linear congruential
  step; no claim below depends on the particular pseudo-random stream, only on
  the deterministic threading and on the ranges of the produced values.
* Fields of `RecipeCard` that no planner/aggregator function reads
  (`portion_size_note`, `primary_carb`, `protein_source`, `veg`, `allergens`,
  `meal_types`, `prep_time_min`, `cook_time_min`, `reheat_method`, `steps`,
  `notes`) are omitted, as are the peripheral loaders, report writers,
  `summarize_days`, `enforce_variety`, `expand_pool` and the legacy
  `build_week_plan`, none of which the claims mention.
-/

deriving instance DecidableEq for Except

set_option maxRecDepth 100000

namespace MealPlan

/-! ### Rational arithmetic in kernel-computable form

The four operations below are extensionally equal to `+`, `-`, `*`, `/` on
`ℚ` (proved right here), but written through `Rat.divInt` so that concrete
runs of the embedded program reduce inside the kernel. -/

/-- Rational addition through `Rat.divInt`. -/
def qAdd (a b : ℚ) : ℚ := Rat.divInt (a.num * b.den + b.num * a.den) (a.den * b.den)

/-- Rational subtraction through `Rat.divInt`. -/
def qSub (a b : ℚ) : ℚ := Rat.divInt (a.num * b.den - b.num * a.den) (a.den * b.den)

/-- Rational multiplication through `Rat.divInt`. -/
def qMul (a b : ℚ) : ℚ := Rat.divInt (a.num * b.num) (a.den * b.den)

/-- Rational division through `Rat.divInt` (zero denominator gives `0`,
like `ℚ` division by zero). -/
def qDiv (a b : ℚ) : ℚ := Rat.divInt (a.num * b.den) (a.den * b.num)

/-! ### String helpers in kernel-computable form

`String.toLower`, `String.trim` and the `String` order of this toolchain do
not reduce inside the kernel, so the Python `.lower()`, `.strip()` and
code-point comparison are modelled directly on the character list. -/

/-- Python `s.lower()` (ASCII case folding, as used by the source). -/
def strLower (s : String) : String := String.mk (s.data.map Char.toLower)

/-- Python `s.strip()`. -/
def strTrim (s : String) : String :=
  String.mk (((s.data.dropWhile Char.isWhitespace).reverse.dropWhile
    Char.isWhitespace).reverse)

/-- Code-point lexicographic order on character lists. -/
def charListLt : List Char → List Char → Bool
  | _, [] => false
  | [], _ :: _ => true
  | a :: as, b :: bs =>
    if a.toNat < b.toNat then true
    else if b.toNat < a.toNat then false
    else charListLt as bs

/-- Python `<` on strings (code-point lexicographic). -/
def strLt (a b : String) : Bool := charListLt a.data b.data

/-- `OZ_TO_G = 28.349523125` from the source head. -/
def OZ_TO_G : ℚ := Rat.divInt 28349523125 1000000000

/-- `G_TO_OZ = 1.0 / OZ_TO_G`. -/
def G_TO_OZ : ℚ := qDiv 1 OZ_TO_G

/-- `macros_per_serving` record. -/
structure Macros where
  calories : ℚ
  protein_g : ℚ
  carbs_g : ℚ
  fat_g : ℚ
deriving DecidableEq, Repr, Inhabited

/-- One ingredient line of a recipe card. -/
structure Ingredient where
  item : String
  qty : ℚ
  unit : String
  grocery_section : String
deriving DecidableEq, Repr, Inhabited

/-- A recipe card (fields read by the planner / aggregator). -/
structure RecipeCard where
  id : String
  name : String
  role : String
  servings_default : Int
  macros_per_serving : Macros
  meal_freq_cap_per_week : Int
  batch_friendly : Bool
  ingredients : List Ingredient
  meal_slots : List String
deriving DecidableEq, Repr, Inhabited

/-- The `Targets` dataclass (defaults as in the source). -/
structure Targets where
  calories_min : ℚ := 1400
  calories_max : ℚ := 1600
  protein_min_g : ℚ := 110
  carbs_max_g : Option ℚ := none
  fat_max_g : Option ℚ := none
  min_unique_main_meals : Option Int := none
  max_unique_main_meals : Option Int := none
  meal_slots : List String := ["Lunch", "Dinner"]
  meals_per_day : Int := 2
  include_snacks : Bool := false
  max_snacks_per_day : Int := 0
deriving DecidableEq, Repr, Inhabited

/-- One planned eating occasion (`MealSlot` dataclass). -/
structure MealSlot where
  day : Nat
  slot : String
  card_ids : List String
  calories : ℚ
  protein_g : ℚ
  carbs_g : ℚ
  fat_g : ℚ
deriving DecidableEq, Repr, Inhabited

/-- Every way the embedded code can fail, one constructor per Python raise
site (`ValueError` raises in the planners, `random` library errors,
`KeyError` on the card dictionary, `ZeroDivisionError`, and the
`ValueError` of `convert_qty`, the spec's `ConversionError`). -/
inductive PyErr where
  | manualNoMains
  | noMealSlots
  | autoNoMains
  | emptyRandRange
  | sampleTooLarge
  | emptyChoice
  | emptyMin
  | stopIteration
  | keyError (key : String)
  | unsupportedConversion (u1 u2 : String)
  | zeroDivision
deriving DecidableEq, Repr

/-- Look up a card by id in the repository (Python `cid in cards` / `cards[cid]`). -/
def findCard? (cards : List RecipeCard) (cid : String) : Option RecipeCard :=
  cards.find? (fun c => c.id == cid)

/-- `cards[cid]` where a miss is a `KeyError`. -/
def findCardE (cards : List RecipeCard) (cid : String) : Except PyErr RecipeCard :=
  match findCard? cards cid with
  | some c => Except.ok c
  | none => Except.error (PyErr.keyError cid)

/-- Python truthiness of a float: nonzero. -/
def pyTruthyQ (q : ℚ) : Bool := decide (q ≠ 0)

/-- Python `x or d` for an optional int (`None` and `0` are falsy). -/
def pyOrOptInt (o : Option Int) (d : Int) : Int :=
  match o with
  | none => d
  | some v => if v = 0 then d else v

/-- Initial generator state for `random.Random(seed)` (see header note). -/
def rngInit (seed : Int) : Nat := (seed % (2 ^ 64)).toNat

/-- One step of the modelled generator. -/
def rngNext (s : Nat) : Nat :=
  (6364136223846793005 * s + 1442695040888963407) % (2 ^ 64)

/-- Draw a value in `[0, n)` (for `n > 0`) and the successor state. -/
def randBelow (s : Nat) (n : Nat) : Nat × Nat :=
  let s2 := rngNext s
  ((s2 / 2 ^ 33) % max 1 n, s2)

/-- `rnd.randint(a, b)`: uniform on `[a, b]`; empty range raises `ValueError`. -/
def randint (s : Nat) (a b : Int) : Except PyErr (Int × Nat) :=
  if b < a then Except.error PyErr.emptyRandRange
  else
    let p := randBelow s (b - a + 1).toNat
    Except.ok (a + (p.1 : Int), p.2)

/-- Swap two positions of a list (out-of-range indices leave it unchanged). -/
def listSwap (l : List α) (i j : Nat) : List α :=
  match l[i]?, l[j]? with
  | some a, some b => (l.set i b).set j a
  | _, _ => l

/-- Fisher-Yates loop of `rnd.shuffle`, from index `k` down to `1` (the
decreasing index is the first argument, then the generator state and the
list). -/
def shuffleGo : Nat → Nat → List α → List α × Nat
  | 0, g, l => (l, g)
  | k + 1, g, l =>
    let p := randBelow g (k + 2)
    shuffleGo k p.2 (listSwap l (k + 1) p.1)

/-- `rnd.shuffle(l)` together with the successor generator state. -/
def shuffle (g : Nat) (l : List α) : List α × Nat :=
  shuffleGo (l.length - 1) g l

/-- Sampling loop of `rnd.sample`: pick a random position, remove it,
repeat (`k` first, then the generator state and the remaining pool). -/
def sampleGo [Inhabited α] : Nat → Nat → List α → List α × Nat
  | 0, g, _ => ([], g)
  | k + 1, g, pool =>
    let p := randBelow g pool.length
    let x := pool.getD p.1 default
    let rest := sampleGo k p.2 (pool.eraseIdx p.1)
    (x :: rest.1, rest.2)

/-- `rnd.sample(l, k)`: `k` distinct positions without replacement; an
out-of-range `k` raises `ValueError`. -/
def sample [Inhabited α] (g : Nat) (l : List α) (k : Int) :
    Except PyErr (List α × Nat) :=
  if k < 0 ∨ (l.length : Int) < k then Except.error PyErr.sampleTooLarge
  else Except.ok (sampleGo k.toNat g l)

/-- `rnd.choice(l)`: uniform element; empty sequence raises `IndexError`. -/
def pyChoice [Inhabited α] (g : Nat) (l : List α) : Except PyErr (α × Nat) :=
  if l.isEmpty then Except.error PyErr.emptyChoice
  else
    let p := randBelow g l.length
    Except.ok (l.getD p.1 default, p.2)

/-- Python `min(cards, key=lambda m: m.macros_per_serving.calories)`:
first minimum; the empty sequence raises `ValueError`. -/
def minByCalories : List RecipeCard → Except PyErr RecipeCard
  | [] => Except.error PyErr.emptyMin
  | x :: xs =>
    Except.ok (xs.foldl
      (fun acc m =>
        if m.macros_per_serving.calories < acc.macros_per_serving.calories then m else acc)
      x)

/-- Running totals of one meal slot while it is being assembled
(`comp_ids` / `cal` / `p` / `carbs` / `fat` locals of the source loops). -/
structure SlotAcc where
  comp_ids : List String
  cal : ℚ
  protein : ℚ
  carbs : ℚ
  fat : ℚ
deriving DecidableEq, Repr, Inhabited

/-- `card_supports_slot` (source lines 544-564). -/
def card_supports_slot (card : RecipeCard) (slot_name : String) (is_snack : Bool) : Bool :=
  let slots := card.meal_slots.map strLower
  let slot_name_l := strLower slot_name
  if is_snack then slots.contains "snack"
  else if slots.isEmpty then
    decide (slot_name_l = "lunch" ∨ slot_name_l = "dinner")
  else
    if slot_name_l = "breakfast" then slots.contains "breakfast"
    else if slot_name_l = "lunch" then slots.contains "lunch" || slots.contains "dinner"
    else if slot_name_l = "dinner" then slots.contains "dinner" || slots.contains "lunch"
    else false

/-- Compatible mains for a slot: cards supporting the slot, or every chosen
main when none does (`choose_main_for_slot`, lines 352-354). -/
def compatMains (mains : List RecipeCard) (slot_name : String) : List RecipeCard :=
  let compatible := mains.filter (fun m => card_supports_slot m slot_name false)
  if compatible.isEmpty then mains else compatible

/-- Mains whose addition keeps the day at or below `calories_max`
(`choose_main_for_slot`, lines 356-361; empty when `calories_max` is falsy). -/
def withinMains (targets : Targets) (day_cal_so_far : ℚ)
    (compatible : List RecipeCard) : List RecipeCard :=
  if pyTruthyQ targets.calories_max then
    compatible.filter
      (fun m => decide (qAdd day_cal_so_far m.macros_per_serving.calories ≤ targets.calories_max))
  else []

/-- `choose_main_for_slot` (lines 337-367). -/
def choose_main_for_slot (g : Nat) (mains : List RecipeCard) (slot_name : String)
    (day_cal_so_far : ℚ) (targets : Targets) : Except PyErr (RecipeCard × Nat) :=
  let compatible := compatMains mains slot_name
  let within := withinMains targets day_cal_so_far compatible
  if within.isEmpty then
    match minByCalories compatible with
    | Except.error e => Except.error e
    | Except.ok m => Except.ok (m, g)
  else pyChoice g within

/-- Manual-mode pools (lines 385-402): per selection entry, clamp the request
to the card's weekly cap, skip unknown ids and non-positive counts, and add
`use` copies of the id to the main pool (role main/both) and/or the side
pool (role side/both). -/
def manualPools (selection : List (String × Int)) (cards : List RecipeCard) :
    List String × List String :=
  selection.foldl
    (fun pools entry =>
      match findCard? cards entry.1 with
      | none => pools
      | some card =>
        let use := min entry.2 card.meal_freq_cap_per_week
        if use ≤ 0 then pools
        else
          (if card.role = "main" ∨ card.role = "both"
             then pools.1 ++ List.replicate use.toNat entry.1 else pools.1,
           if card.role = "side" ∨ card.role = "both"
             then pools.2 ++ List.replicate use.toNat entry.1 else pools.2))
    ([], [])

/-- The manual-mode side acceptance rule, kept with the two literal branches
of the source (lines 452-466): the `cal < 450` arm and the `else` arm test
the same `new_cal <= 800` condition. -/
def manualSideAccept (cal newCal : ℚ) : Bool :=
  if cal < 450 then decide (newCal ≤ 800) else decide (newCal ≤ 800)

/-- Manual-mode side attachment (the `while attempts < side_len` loop, lines
443-466).  The first argument counts the remaining attempts, the second is
the persistent side cursor `side_idx`. -/
def attachSidesManual (cards : List RecipeCard) (side_pool : List String) :
    Nat → Nat → SlotAcc → Nat × SlotAcc
  | 0, side_idx, acc => (side_idx, acc)
  | n + 1, side_idx, acc =>
    if acc.comp_ids.length < 3 then
      let sid := side_pool.getD (side_idx % side_pool.length) ""
      let side := (findCard? cards sid).getD default
      let newCal := qAdd acc.cal side.macros_per_serving.calories
      if manualSideAccept acc.cal newCal then
        attachSidesManual cards side_pool n (side_idx + 1)
          { comp_ids := acc.comp_ids ++ [sid]
            cal := newCal
            protein := qAdd acc.protein side.macros_per_serving.protein_g
            carbs := qAdd acc.carbs side.macros_per_serving.carbs_g
            fat := qAdd acc.fat side.macros_per_serving.fat_g }
      else attachSidesManual cards side_pool n (side_idx + 1) acc
    else (side_idx, acc)

/-- The 14-iteration manual slot loop (lines 427-483).  `r` counts remaining
slots, `i` is the loop index (so the day is `i / 2`, matching the source's
day counter that increments after every dinner), `side_idx` the cursor. -/
def manualSlots (cards : List RecipeCard) (main_pool side_pool : List String) :
    Nat → Nat → Nat → List MealSlot
  | 0, _, _ => []
  | r + 1, i, side_idx =>
    let slot_name := if i % 2 = 0 then "Lunch" else "Dinner"
    let main_cid := main_pool.getD (i % main_pool.length) ""
    let main := (findCard? cards main_cid).getD default
    let acc0 : SlotAcc :=
      { comp_ids := [main_cid]
        cal := main.macros_per_serving.calories
        protein := main.macros_per_serving.protein_g
        carbs := main.macros_per_serving.carbs_g
        fat := main.macros_per_serving.fat_g }
    let res :=
      if side_pool.length ≠ 0
        then attachSidesManual cards side_pool side_pool.length side_idx acc0
        else (side_idx, acc0)
    { day := i / 2, slot := slot_name, card_ids := res.2.comp_ids
      calories := res.2.cal, protein_g := res.2.protein
      carbs_g := res.2.carbs, fat_g := res.2.fat }
      :: manualSlots cards main_pool side_pool r (i + 1) res.1

/-- `build_week_plan_manual` (lines 370-483). -/
def build_week_plan_manual (selection : List (String × Int)) (cards : List RecipeCard)
    (seed : Int) : Except PyErr (List MealSlot) :=
  let pools := manualPools selection cards
  if pools.1.isEmpty then Except.error PyErr.manualNoMains
  else
    let s1 := shuffle (rngInit seed) pools.1
    let s2 := shuffle s1.2 pools.2
    Except.ok (manualSlots cards s1.1 s2.1 14 0 0)

/-- Snack slot label (`"Snack"` or `"Snack<k>"`, lines 502-503). -/
def snackSlotName (maxSnacks : Int) (s : Nat) : String :=
  if maxSnacks = 1 then "Snack" else "Snack" ++ toString (s + 1)

/-- One day of the weekly schedule (lines 494-504): `meals_per_day` main
slots cycling through the configured labels, then the snack slots. -/
def daySlots (targets : Targets) (day : Nat) : List (Nat × String × Bool) :=
  let base_slots := if targets.meal_slots.isEmpty then ["Lunch", "Dinner"] else targets.meal_slots
  let meals_per_day := (max 1 targets.meals_per_day).toNat
  (List.range meals_per_day).map
      (fun i => (day, base_slots.getD (i % base_slots.length) "", false))
    ++ (if targets.include_snacks = true ∧ targets.max_snacks_per_day > 0 then
          (List.range targets.max_snacks_per_day.toNat).map
            (fun s => (day, snackSlotName targets.max_snacks_per_day s, true))
        else [])

/-- `generate_week_slots` (lines 485-506): `(day, slot_name, is_snack)` per
scheduled occasion. -/
def generate_week_slots (targets : Targets) : List (Nat × String × Bool) :=
  (List.range 7).foldl (fun acc day => acc ++ daySlots targets day) []

/-- Eligible mains of auto mode (lines 575-580): role main/both,
batch-friendly, 250-800 kcal per serving. -/
def autoMainsAll (cards : List RecipeCard) : List RecipeCard :=
  cards.filter
    (fun c => (c.role == "main" || c.role == "both") && c.batch_friendly
      && decide (250 ≤ c.macros_per_serving.calories)
      && decide (c.macros_per_serving.calories ≤ 800))

/-- Eligible sides of auto mode (lines 581-586): role side/both,
batch-friendly, 40-300 kcal per serving. -/
def autoSidesAll (cards : List RecipeCard) : List RecipeCard :=
  cards.filter
    (fun c => (c.role == "side" || c.role == "both") && c.batch_friendly
      && decide (40 ≤ c.macros_per_serving.calories)
      && decide (c.macros_per_serving.calories ≤ 300))

/-- Eligible snacks of auto mode (lines 587-592): batch-friendly, a "snack"
slot tag, 50-300 kcal per serving. -/
def autoSnacksAll (cards : List RecipeCard) : List RecipeCard :=
  cards.filter
    (fun c => c.batch_friendly
      && (c.meal_slots.map strLower).contains "snack"
      && decide (50 ≤ c.macros_per_serving.calories)
      && decide (c.macros_per_serving.calories ≤ 300))

/-- `min_u` before the `max(1, ...)` clamp: `targets.min_unique_main_meals or 2`. -/
def autoMinURaw (targets : Targets) : Int :=
  pyOrOptInt targets.min_unique_main_meals 2

/-- The lower randint bound of auto mode (lines 599-602): clamped to at
least 1 but never to the available-card count. -/
def autoMinU (targets : Targets) : Int := max 1 (autoMinURaw targets)

/-- The upper randint bound of auto mode (lines 600-604): defaulted from the
raw lower bound, raised to at least `autoMinU`, then capped at the number
of eligible mains plus sides when that is positive. -/
def autoMaxU (targets : Targets) (total_available : Nat) : Int :=
  let max_u0 := pyOrOptInt targets.max_unique_main_meals (max (autoMinURaw targets) 3)
  let max_u1 := max (autoMinU targets) max_u0
  if total_available > 0 then min max_u1 (total_available : Int) else max_u1

/-- The auto-mode meal calorie band check (lines 702-705): the `cal < 450`
disjunct and the `450 <= cal <= 800` disjunct both test `new_meal_cal <= 800`. -/
def autoWithinMealBand (cal newMealCal : ℚ) : Bool :=
  (decide (cal < 450) && decide (newMealCal ≤ 800))
    || (decide (450 ≤ cal) && decide (cal ≤ 800) && decide (newMealCal ≤ 800))

/-- The auto-mode daily-cap check for a candidate side (lines 710-715):
exceeding `calories_max` is tolerated only while still under `calories_min`
and within a 5 percent overshoot. -/
def autoDayCapOk (targets : Targets) (dayTot newDayCal : ℚ) : Bool :=
  if pyTruthyQ targets.calories_max then
    if decide (newDayCal > targets.calories_max) then
      pyTruthyQ targets.calories_min && decide (dayTot < targets.calories_min)
        && decide (newDayCal ≤ qMul targets.calories_max (Rat.divInt 105 100))
    else true
  else true

/-- Auto-mode side attachment over the shuffled candidate list (lines
687-722); stops at three components. -/
def attachSidesAuto (targets : Targets) (slot_name : String) (dayTot : ℚ) :
    List RecipeCard → SlotAcc → SlotAcc
  | [], acc => acc
  | side :: rest, acc =>
    if acc.comp_ids.length ≥ 3 then acc
    else if ¬ card_supports_slot side slot_name false then
      attachSidesAuto targets slot_name dayTot rest acc
    else
      let side_cal := side.macros_per_serving.calories
      let newMealCal := qAdd acc.cal side_cal
      if autoWithinMealBand acc.cal newMealCal
          && autoDayCapOk targets dayTot (qAdd dayTot side_cal) then
        attachSidesAuto targets slot_name dayTot rest
          { comp_ids := acc.comp_ids ++ [side.id]
            cal := newMealCal
            protein := qAdd acc.protein side.macros_per_serving.protein_g
            carbs := qAdd acc.carbs side.macros_per_serving.carbs_g
            fat := qAdd acc.fat side.macros_per_serving.fat_g }
      else attachSidesAuto targets slot_name dayTot rest acc

/-- First stage of snack selection (lines 637-643): a random snack among
those keeping the day at or below `calories_max`, when `calories_max` is
truthy and such a snack exists. -/
def snackUnderMax (targets : Targets) (snacks_all : List RecipeCard) (dayTot : ℚ)
    (g : Nat) : Except PyErr (Option RecipeCard × Nat) :=
  if pyTruthyQ targets.calories_max then
    let under := snacks_all.filter
      (fun s => decide (qAdd dayTot s.macros_per_serving.calories ≤ targets.calories_max))
    if under.isEmpty then Except.ok (none, g)
    else
      match pyChoice g under with
      | Except.error e => Except.error e
      | Except.ok pr => Except.ok (some pr.1, pr.2)
  else Except.ok (none, g)

/-- The snack chosen for a snack slot (lines 634-654): a random snack that
keeps the day at or below `calories_max` when one exists, else the lightest
snack while still under `calories_min`, else none. -/
def pickSnack (targets : Targets) (snacks_all : List RecipeCard) (dayTot : ℚ)
    (g : Nat) : Except PyErr (Option RecipeCard × Nat) :=
  match snackUnderMax targets snacks_all dayTot g with
  | Except.error e => Except.error e
  | Except.ok (some s, g1) => Except.ok (some s, g1)
  | Except.ok (none, g1) =>
    if pyTruthyQ targets.calories_min = true ∧ dayTot < targets.calories_min then
      match minByCalories snacks_all with
      | Except.error e => Except.error e
      | Except.ok m => Except.ok (some m, g1)
    else Except.ok (none, g1)

/-- One iteration of the auto-mode slot loop (lines 628-736): returns the
emitted slot (or `none` for a skipped snack slot), the successor generator
state and the updated per-day totals. -/
def autoStep (targets : Targets) (chosen_mains chosen_sides snacks_all : List RecipeCard)
    (e : Nat × String × Bool) (g : Nat) (day_totals : Nat → ℚ) :
    Except PyErr (Option MealSlot × Nat × (Nat → ℚ)) :=
  let day := e.1
  let slot_name := e.2.1
  if e.2.2 then
    if snacks_all.isEmpty then Except.ok (none, g, day_totals)
    else
      match pickSnack targets snacks_all (day_totals day) g with
      | Except.error err => Except.error err
      | Except.ok (none, g1) => Except.ok (none, g1, day_totals)
      | Except.ok (some snack, g1) =>
        let cal := snack.macros_per_serving.calories
        Except.ok
          (some { day := day, slot := slot_name, card_ids := [snack.id]
                  calories := cal
                  protein_g := snack.macros_per_serving.protein_g
                  carbs_g := snack.macros_per_serving.carbs_g
                  fat_g := snack.macros_per_serving.fat_g },
           g1,
           fun d => if d = day then qAdd (day_totals d) cal else day_totals d)
  else
    match choose_main_for_slot g chosen_mains slot_name (day_totals day) targets with
    | Except.error err => Except.error err
    | Except.ok (main, g1) =>
      let acc0 : SlotAcc :=
        { comp_ids := [main.id]
          cal := main.macros_per_serving.calories
          protein := main.macros_per_serving.protein_g
          carbs := main.macros_per_serving.carbs_g
          fat := main.macros_per_serving.fat_g }
      let sh := if chosen_sides.isEmpty then (([] : List RecipeCard), g1)
                else shuffle g1 chosen_sides
      let acc := attachSidesAuto targets slot_name (day_totals day) sh.1 acc0
      Except.ok
        (some { day := day, slot := slot_name, card_ids := acc.comp_ids
                calories := acc.cal, protein_g := acc.protein
                carbs_g := acc.carbs, fat_g := acc.fat },
         sh.2,
         fun d => if d = day then qAdd (day_totals d) acc.cal else day_totals d)

/-- The auto-mode slot loop over the weekly schedule. -/
def autoLoop (targets : Targets) (chosen_mains chosen_sides snacks_all : List RecipeCard) :
    List (Nat × String × Bool) → Nat → (Nat → ℚ) →
    Except PyErr (List MealSlot × Nat × (Nat → ℚ))
  | [], g, totals => Except.ok ([], g, totals)
  | e :: rest, g, totals =>
    match autoStep targets chosen_mains chosen_sides snacks_all e g totals with
    | Except.error err => Except.error err
    | Except.ok (opt, g1, t1) =>
      match autoLoop targets chosen_mains chosen_sides snacks_all rest g1 t1 with
      | Except.error err => Except.error err
      | Except.ok (tail, g2, t2) =>
        Except.ok ((match opt with | some s => s :: tail | none => tail), g2, t2)

/-- `build_auto_week_plan` (lines 566-745). -/
def build_auto_week_plan (cards : List RecipeCard) (targets : Targets) (seed : Int) :
    Except PyErr (List MealSlot) :=
  let g0 := rngInit seed
  let week_slots := generate_week_slots targets
  if week_slots.isEmpty then Except.error PyErr.noMealSlots
  else
    let mains_all := autoMainsAll cards
    let sides_all := autoSidesAll cards
    let snacks_all := autoSnacksAll cards
    if mains_all.isEmpty then Except.error PyErr.autoNoMains
    else
      let total_available := mains_all.length + sides_all.length
      match randint g0 (autoMinU targets) (autoMaxU targets total_available) with
      | Except.error err => Except.error err
      | Except.ok (n_unique, g1) =>
        let n_mains := max 1 (min (mains_all.length : Int) n_unique)
        match sample g1 mains_all n_mains with
        | Except.error err => Except.error err
        | Except.ok (chosen_mains, g2) =>
          let sidesRes : Except PyErr (List RecipeCard × Nat) :=
            if sides_all.isEmpty then Except.ok ([], g2)
            else
              match randint g2 1 (min (sides_all.length : Int) (max 1 (2 * n_mains))) with
              | Except.error err => Except.error err
              | Except.ok (n_sides, g3) => sample g3 sides_all n_sides
          match sidesRes with
          | Except.error err => Except.error err
          | Except.ok (chosen_sides, g4) =>
            match autoLoop targets chosen_mains chosen_sides snacks_all week_slots g4
                (fun _ => 0) with
            | Except.error err => Except.error err
            | Except.ok (slots, _, _) => Except.ok slots

/-- One final grocery row (also the record stored per `(item, unit)` key of
the source's `by_item` dictionary, which has the same four fields). -/
structure GroceryRow where
  item : String
  qty : ℚ
  unit : String
  grocery_section : String
deriving DecidableEq, Repr, Inhabited

/-- `normalize_key_unit` (lines 806-811). -/
def normalize_key_unit (item u : String) : String × String :=
  let item_norm := strLower (strTrim item)
  let unit_norm := strLower (strTrim u)
  (item_norm, if unit_norm = "cups" then "cup" else unit_norm)

/-- `can_convert` (lines 814-815): exactly the g/oz pair (in either order).
Defined in the source but never called by `aggregate_grocery`. -/
def can_convert (u1 u2 : String) : Bool :=
  decide ((u1 = "g" ∧ u2 = "oz") ∨ (u1 = "oz" ∧ u2 = "g"))

/-- `convert_qty` (lines 818-825); the raise is the spec's `ConversionError`. -/
def convert_qty (qty : ℚ) (from_u to_u : String) : Except PyErr ℚ :=
  if from_u = to_u then Except.ok qty
  else if from_u = "oz" ∧ to_u = "g" then Except.ok (qMul qty OZ_TO_G)
  else if from_u = "g" ∧ to_u = "oz" then Except.ok (qMul qty G_TO_OZ)
  else Except.error (PyErr.unsupportedConversion from_u to_u)

/-- Python's `round` to an integer: nearest, ties to even. -/
def roundHalfEven (q : ℚ) : Int :=
  let f := ⌊q⌋
  let frac := qSub q (f : ℚ)
  if frac < Rat.divInt 1 2 then f
  else if Rat.divInt 1 2 < frac then f + 1
  else if f % 2 = 0 then f else f + 1

/-- Python's `round(x, 1)`: one decimal place, ties to even. -/
def pyRound1 (q : ℚ) : ℚ := qDiv ((roundHalfEven (qMul q 10) : ℚ)) 10

/-- One `Counter` update: bump an existing key or append a fresh one. -/
def counterAdd (acc : List (String × Nat)) (cid : String) : List (String × Nat) :=
  if acc.any (fun p => p.1 = cid) then
    acc.map (fun p => if p.1 = cid then (p.1, p.2 + 1) else p)
  else acc ++ [(cid, 1)]

/-- `collections.Counter(cid for s in slots for cid in s.card_ids)`
(lines 829-833), in first-encounter order like a Python dict. -/
def groceryCounts (slots : List MealSlot) : List (String × Nat) :=
  slots.foldl (fun acc s => s.card_ids.foldl counterAdd acc) []

/-- One `by_item` update (lines 841-849): accumulate onto an existing
`(item, unit)` key or append a fresh record. -/
def byItemAdd (m : List ((String × String) × GroceryRow)) (key : String × String)
    (q : ℚ) (sect : String) : List ((String × String) × GroceryRow) :=
  if m.any (fun p => p.1 = key) then
    m.map (fun p => if p.1 = key then (p.1, { p.2 with qty := qAdd p.2.qty q }) else p)
  else m ++ [(key, { item := key.1, qty := q, unit := key.2, grocery_section := sect })]

/-- Fold one card's scaled ingredients into `by_item` (lines 839-849). -/
def cardContribution (m : List ((String × String) × GroceryRow))
    (card : RecipeCard) (scale : ℚ) : List ((String × String) × GroceryRow) :=
  card.ingredients.foldl
    (fun m ing =>
      byItemAdd m (normalize_key_unit ing.item ing.unit) (qMul ing.qty scale)
        ing.grocery_section)
    m

/-- The `by_item` accumulation over all used cards (lines 836-849);
`used / float(servings_default)` raises `ZeroDivisionError` on a zero
default and unknown ids raise `KeyError`. -/
def groceryByItem (slots : List MealSlot) (cards : List RecipeCard) :
    Except PyErr (List ((String × String) × GroceryRow)) :=
  (groceryCounts slots).foldlM
    (fun m p =>
      match findCardE cards p.1 with
      | Except.error e => Except.error e
      | Except.ok card =>
        if card.servings_default = 0 then Except.error PyErr.zeroDivision
        else Except.ok (cardContribution m card (qDiv ((p.2 : Nat) : ℚ) ((card.servings_default : Int) : ℚ))))
    []

/-- One per-unit quantity update of `merged[item]`. -/
def unitAdd (units : List (String × ℚ)) (u : String) (q : ℚ) : List (String × ℚ) :=
  if units.any (fun p => p.1 = u) then
    units.map (fun p => if p.1 = u then (p.1, qAdd p.2 q) else p)
  else units ++ [(u, q)]

/-- One `merged` update (lines 853-855). -/
def mergedAdd (merged : List (String × List (String × ℚ))) (item u : String)
    (q : ℚ) : List (String × List (String × ℚ)) :=
  if merged.any (fun p => p.1 = item) then
    merged.map (fun p => if p.1 = item then (p.1, unitAdd p.2 u q) else p)
  else merged ++ [(item, [(u, q)])]

/-- One `meta` update (line 856): the section of the last record wins. -/
def metaSet (meta : List (String × String)) (item sect : String) :
    List (String × String) :=
  if meta.any (fun p => p.1 = item) then
    meta.map (fun p => if p.1 = item then (p.1, sect) else p)
  else meta ++ [(item, sect)]

/-- Build `merged` and `meta` from `by_item` (lines 851-856). -/
def groceryMergedMeta (by_item : List ((String × String) × GroceryRow)) :
    List (String × List (String × ℚ)) × List (String × String) :=
  by_item.foldl
    (fun acc p => (mergedAdd acc.1 p.1.1 p.1.2 p.2.qty, metaSet acc.2 p.1.1 p.2.grocery_section))
    ([], [])

/-- First-match association lookup (Python dict access order). -/
def assocLookup (l : List (String × α)) (k : String) : Option α :=
  (l.find? (fun p => p.1 == k)).map (fun p => p.2)

/-- `units.get(u, 0.0)`. -/
def unitsGet (units : List (String × ℚ)) (u : String) : ℚ :=
  (assocLookup units u).getD 0

/-- `u in units`. -/
def unitsHas (units : List (String × ℚ)) (u : String) : Bool :=
  units.any (fun p => p.1 = u)

/-- Build one final row from an item's accumulated units (lines 859-874):
merge a g/oz pair into grams rounded to one decimal; otherwise keep the
first-recorded unit, rounding grams to an integer and oz/tbsp/tsp/cup to
one decimal, silently ignoring any further units. -/
def groceryFinalRow (meta : List (String × String)) (item : String)
    (units : List (String × ℚ)) : Except PyErr GroceryRow :=
  let sect := (assocLookup meta item).getD "other"
  if unitsHas units "g" && unitsHas units "oz" then
    match convert_qty (unitsGet units "oz") "oz" "g" with
    | Except.error e => Except.error e
    | Except.ok conv =>
      Except.ok { item := item, qty := pyRound1 (qAdd (unitsGet units "g") conv)
                  unit := "g", grocery_section := sect }
  else
    match units with
    | [] => Except.error PyErr.stopIteration
    | (u, q) :: _ =>
      let q2 := if u = "g" then ((roundHalfEven q : ℚ))
                else if u = "oz" ∨ u = "tbsp" ∨ u = "tsp" ∨ u = "cup" then pyRound1 q
                else q
      Except.ok { item := item, qty := q2, unit := u, grocery_section := sect }

/-- The `final_rows` loop (lines 858-874). -/
def groceryFinalRows (merged : List (String × List (String × ℚ)))
    (meta : List (String × String)) : Except PyErr (List GroceryRow) :=
  merged.foldlM
    (fun acc p =>
      match groceryFinalRow meta p.1 p.2 with
      | Except.error e => Except.error e
      | Except.ok r => Except.ok (acc ++ [r]))
    []

/-- Strict `(grocery_section, item)` order of the final sort (line 876). -/
def rowLt (a b : GroceryRow) : Bool :=
  strLt a.grocery_section b.grocery_section
    || (a.grocery_section == b.grocery_section && strLt a.item b.item)

/-- Stable insertion for the final sort. -/
def insertRow (x : GroceryRow) : List GroceryRow → List GroceryRow
  | [] => [x]
  | y :: ys => if rowLt x y then x :: y :: ys else y :: insertRow x ys

/-- `final_rows.sort(key=lambda r: (r["grocery_section"], r["item"]))`:
stable ascending sort. -/
def sortRows (rows : List GroceryRow) : List GroceryRow :=
  rows.foldl (fun acc r => insertRow r acc) []

/-- `aggregate_grocery` (lines 828-877). -/
def aggregate_grocery (slots : List MealSlot) (cards : List RecipeCard) :
    Except PyErr (List GroceryRow) :=
  match groceryByItem slots cards with
  | Except.error e => Except.error e
  | Except.ok by_item =>
    let mm := groceryMergedMeta by_item
    match groceryFinalRows mm.1 mm.2 with
    | Except.error e => Except.error e
    | Except.ok rows => Except.ok (sortRows rows)

/-- Total calories of a plan (used by the end-to-end example claim). -/
def sumCalories (slots : List MealSlot) : ℚ :=
  slots.foldl (fun a s => qAdd a s.calories) 0

/-- A grocery row as the raw copy of an ingredient line (claim C9's
round-trip comparison). -/
def ingRow (ing : Ingredient) : GroceryRow :=
  { item := ing.item, qty := ing.qty, unit := ing.unit
    grocery_section := ing.grocery_section }

/-! ## Result classifiers -/

/-- The planner result is the manual-mode empty-main-pool `ValueError`. -/
def isErrManualNoMains : Except PyErr (List MealSlot) → Bool
  | Except.error PyErr.manualNoMains => true
  | _ => false

/-- The planner result is the auto-mode empty-mains `ValueError`. -/
def isErrAutoNoMains : Except PyErr (List MealSlot) → Bool
  | Except.error PyErr.autoNoMains => true
  | _ => false

/-- The planner result is the zero-configured-slots `ValueError`. -/
def isErrNoMealSlots : Except PyErr (List MealSlot) → Bool
  | Except.error PyErr.noMealSlots => true
  | _ => false

/-- The planner produced a plan. -/
def isOkPlan : Except PyErr (List MealSlot) → Bool
  | Except.ok _ => true
  | _ => false

/-- The aggregation result is the unsupported-unit-conversion error (the
spec's `ConversionError`). -/
def isErrConversion : Except PyErr (List GroceryRow) → Bool
  | Except.error (PyErr.unsupportedConversion _ _) => true
  | _ => false

/-- `Except.isOk` for the embedded results. -/
def exceptIsOk : Except PyErr α → Bool
  | Except.ok _ => true
  | _ => false

/-! ## Concrete fixtures used by witnesses and counterexamples -/

/-- Main A of the spec's end-to-end example (500 kcal, role main,
`servings_default` 2, weekly cap 7). -/
def exCardA : RecipeCard :=
  { id := "a", name := "Main A", role := "main", servings_default := 2
    macros_per_serving := { calories := 500, protein_g := 40, carbs_g := 30, fat_g := 10 }
    meal_freq_cap_per_week := 7, batch_friendly := true
    ingredients := [{ item := "chicken", qty := 10, unit := "oz", grocery_section := "protein" }]
    meal_slots := [] }

/-- Side B of the spec's end-to-end example (150 kcal, role side,
`servings_default` 4, weekly cap 7). -/
def exCardB : RecipeCard :=
  { id := "b", name := "Side B", role := "side", servings_default := 4
    macros_per_serving := { calories := 150, protein_g := 5, carbs_g := 20, fat_g := 3 }
    meal_freq_cap_per_week := 7, batch_friendly := true
    ingredients := [{ item := "rice", qty := 50, unit := "g", grocery_section := "pantry" }]
    meal_slots := [] }

/-- The example selection `{A: 7, B: 7}`. -/
def exSelAB : List (String × Int) := [("a", 7), ("b", 7)]

/-- The example repository. -/
def exCardsAB : List RecipeCard := [exCardA, exCardB]

/-- A card of role `both` (in manual mode it enters the main pool and the
side pool simultaneously). -/
def exCardX : RecipeCard :=
  { id := "x", name := "X", role := "both", servings_default := 2
    macros_per_serving := { calories := 100, protein_g := 1, carbs_g := 1, fat_g := 1 }
    meal_freq_cap_per_week := 7, batch_friendly := true
    ingredients := [], meal_slots := [] }

/-- An eligible auto-mode main (500 kcal, batch-friendly). -/
def exMainM : RecipeCard :=
  { id := "m", name := "M", role := "main", servings_default := 2
    macros_per_serving := { calories := 500, protein_g := 40, carbs_g := 30, fat_g := 10 }
    meal_freq_cap_per_week := 3, batch_friendly := true
    ingredients := [], meal_slots := [] }

/-- An eligible auto-mode side (100 kcal, batch-friendly). -/
def exSideS : RecipeCard :=
  { id := "s", name := "S", role := "side", servings_default := 2
    macros_per_serving := { calories := 100, protein_g := 5, carbs_g := 10, fat_g := 2 }
    meal_freq_cap_per_week := 7, batch_friendly := true
    ingredients := [], meal_slots := [] }

/-- Targets pinning one unique recipe, otherwise the source defaults. -/
def exTargetsOne : Targets :=
  { min_unique_main_meals := some 1, max_unique_main_meals := some 1 }

/-- The repository for the deterministic-run witness. -/
def w1cards : List RecipeCard := [exMainM, exSideS]

/-- The plan the witness run produces. -/
def w1plan : List MealSlot :=
  (build_auto_week_plan w1cards exTargetsOne 5).toOption.getD []

/-- The id resolves to a card whose role admits main. -/
def mainRoleOk (cards : List RecipeCard) (cid : String) : Bool :=
  (findCard? cards cid).any (fun c => c.role == "main" || c.role == "both")

/-- The id resolves to a card whose role admits side. -/
def sideRoleOk (cards : List RecipeCard) (cid : String) : Bool :=
  (findCard? cards cid).any (fun c => c.role == "side" || c.role == "both")

/-- A bare meal slot holding one card (aggregation input fixture). -/
def exSlotOf (cid : String) : MealSlot :=
  { day := 0, slot := "Lunch", card_ids := [cid]
    calories := 0, protein_g := 0, carbs_g := 0, fat_g := 0 }

/-- A card with the same item in two non-convertible units (cup and tbsp). -/
def c7card : RecipeCard :=
  { id := "c", name := "C", role := "main", servings_default := 1
    macros_per_serving := { calories := 500, protein_g := 1, carbs_g := 1, fat_g := 1 }
    meal_freq_cap_per_week := 7, batch_friendly := true
    ingredients := [{ item := "flour", qty := 1, unit := "cup", grocery_section := "pantry" },
                    { item := "flour", qty := 2, unit := "tbsp", grocery_section := "pantry" }]
    meal_slots := [] }

/-- A card with the same item in grams and ounces (100 g and 1 oz). -/
def c8card : RecipeCard :=
  { id := "c8", name := "C8", role := "main", servings_default := 1
    macros_per_serving := { calories := 500, protein_g := 1, carbs_g := 1, fat_g := 1 }
    meal_freq_cap_per_week := 7, batch_friendly := true
    ingredients := [{ item := "thing", qty := 100, unit := "g", grocery_section := "pantry" },
                    { item := "thing", qty := 1, unit := "oz", grocery_section := "pantry" }]
    meal_slots := [] }

/-- A card whose raw ingredient has a capitalised item and a quarter-cup
quantity. -/
def c9card : RecipeCard :=
  { id := "c9", name := "C9", role := "main", servings_default := 1
    macros_per_serving := { calories := 500, protein_g := 1, carbs_g := 1, fat_g := 1 }
    meal_freq_cap_per_week := 7, batch_friendly := true
    ingredients := [{ item := "Oats", qty := Rat.divInt 1 4, unit := "cup"
                      grocery_section := "pantry" }]
    meal_slots := [] }

/-- Targets pinning two unique recipes. -/
def c6targets : Targets :=
  { min_unique_main_meals := some 2, max_unique_main_meals := some 2 }

/-- Selection for the role-`both` manual counterexample. -/
def c3sel : List (String × Int) := [("x", 2)]

/-- Repository for the role-`both` manual counterexample. -/
def c3cards : List RecipeCard := [exCardX]

/-- The plan the role-`both` manual run produces at seed 0. -/
def c3plan : List MealSlot :=
  (build_week_plan_manual c3sel c3cards 0).toOption.getD []

/-- One slot of the plan the end-to-end example actually produces:
Main A and Side B twice (500 + 150 + 150 = 800 ≤ 800 admits the second B). -/
def c5slot (d : Nat) (name : String) : MealSlot :=
  { day := d, slot := name, card_ids := ["a", "b", "b"]
    calories := 800, protein_g := 50, carbs_g := 70, fat_g := 16 }

/-- The 14-slot plan of the end-to-end example, for every seed. -/
def c5plan : List MealSlot :=
  [c5slot 0 "Lunch", c5slot 0 "Dinner", c5slot 1 "Lunch", c5slot 1 "Dinner",
   c5slot 2 "Lunch", c5slot 2 "Dinner", c5slot 3 "Lunch", c5slot 3 "Dinner",
   c5slot 4 "Lunch", c5slot 4 "Dinner", c5slot 5 "Lunch", c5slot 5 "Dinner",
   c5slot 6 "Lunch", c5slot 6 "Dinner"]

/-- The grocery rows of the end-to-end example: both cards are used with
scale factor 7 (A 14 uses over 2 servings, B 28 uses over 4 servings). -/
def c5rows : List GroceryRow :=
  [{ item := "rice", qty := 350, unit := "g", grocery_section := "pantry" },
   { item := "chicken", qty := 70, unit := "oz", grocery_section := "protein" }]

/-- The initial slot accumulator of a manual slot: the main alone. -/
def manualAcc0 (cards : List RecipeCard) (mp : List String) (i : Nat) : SlotAcc :=
  { comp_ids := [mp.getD (i % mp.length) ""]
    cal := ((findCard? cards (mp.getD (i % mp.length) "")).getD
      default).macros_per_serving.calories
    protein := ((findCard? cards (mp.getD (i % mp.length) "")).getD
      default).macros_per_serving.protein_g
    carbs := ((findCard? cards (mp.getD (i % mp.length) "")).getD
      default).macros_per_serving.carbs_g
    fat := ((findCard? cards (mp.getD (i % mp.length) "")).getD
      default).macros_per_serving.fat_g }

/-- The slot matcher of the coverage claim: the slot sits at the requested
day under the requested label and its first component id is one of the
chosen mains. -/
def slotMatches (cm : List RecipeCard) (d : Nat) (name : String) (s : MealSlot) : Bool :=
  s.day == d && s.slot == name &&
    (match s.card_ids with
     | [] => false
     | mid :: _ => cm.any (fun m => m.id == mid))

/-- A 900-kcal main used alone (no sides selected). -/
def c4heavy : RecipeCard :=
  { id := "h", name := "Heavy", role := "main", servings_default := 2
    macros_per_serving := { calories := 900, protein_g := 60, carbs_g := 50, fat_g := 30 }
    meal_freq_cap_per_week := 14, batch_friendly := true
    ingredients := [], meal_slots := [] }

/-- Repository for the heavy-main witness. -/
def c4cards : List RecipeCard := [c4heavy]

/-- Selection for the heavy-main witness. -/
def c4sel : List (String × Int) := [("h", 14)]

/-- The heavy-main plan at seed 0 (every slot is the 900-kcal main alone). -/
def c4plan : List MealSlot :=
  (build_week_plan_manual c4sel c4cards 0).toOption.getD []

/-- Fixture for the C9 witness: one card used exactly `servings_default`
times, with an already-normalized item name and a rounding-fixed gram
quantity. -/
def c9wcard : RecipeCard :=
  { id := "c9w", name := "C9W", role := "main", servings_default := 2
    macros_per_serving :=
      { calories := 500, protein_g := 1, carbs_g := 1, fat_g := 1 }
    meal_freq_cap_per_week := 7, batch_friendly := true
    ingredients := [{ item := "rice", qty := 100, unit := "g"
                      grocery_section := "pantry" }]
    meal_slots := [] }

/-! ## The custom arithmetic agrees with the `Rat` operations -/

theorem qAdd_eq (a b : ℚ) : qAdd a b = a + b := by
  have ha : ((a.den : ℚ)) ≠ 0 := by
    exact_mod_cast a.den_nz
  have hb : ((b.den : ℚ)) ≠ 0 := by
    exact_mod_cast b.den_nz
  rw [qAdd, Rat.divInt_eq_div]
  push_cast
  conv_rhs => rw [← Rat.num_div_den a, ← Rat.num_div_den b]
  field_simp

theorem qSub_eq (a b : ℚ) : qSub a b = a - b := by
  have ha : ((a.den : ℚ)) ≠ 0 := by
    exact_mod_cast a.den_nz
  have hb : ((b.den : ℚ)) ≠ 0 := by
    exact_mod_cast b.den_nz
  rw [qSub, Rat.divInt_eq_div]
  push_cast
  conv_rhs => rw [← Rat.num_div_den a, ← Rat.num_div_den b]
  field_simp
  ring

theorem qMul_eq (a b : ℚ) : qMul a b = a * b := by
  have ha : ((a.den : ℚ)) ≠ 0 := by
    exact_mod_cast a.den_nz
  have hb : ((b.den : ℚ)) ≠ 0 := by
    exact_mod_cast b.den_nz
  rw [qMul, Rat.divInt_eq_div]
  push_cast
  conv_rhs => rw [← Rat.num_div_den a, ← Rat.num_div_den b]
  field_simp

theorem qDiv_eq (a b : ℚ) : qDiv a b = a / b := by
  by_cases hb0 : b = 0
  · subst hb0
    simp [qDiv]
  · have ha : ((a.den : ℚ)) ≠ 0 := by
      exact_mod_cast a.den_nz
    have hb : ((b.den : ℚ)) ≠ 0 := by
      exact_mod_cast b.den_nz
    have hbn : ((b.num : ℚ)) ≠ 0 := by
      exact_mod_cast Rat.num_ne_zero.mpr hb0
    rw [qDiv, Rat.divInt_eq_div]
    push_cast
    conv_rhs => rw [← Rat.num_div_den a, ← Rat.num_div_den b]
    field_simp

/-! ## Error classification lemmas -/

theorem randint_error {s : Nat} {a b : Int} {e : PyErr}
    (h : randint s a b = Except.error e) : e = PyErr.emptyRandRange := by
  unfold randint at h
  split at h
  · exact (Except.error.inj h).symm
  · simp at h

theorem sample_error [Inhabited α] {g : Nat} {l : List α} {k : Int} {e : PyErr}
    (h : sample g l k = Except.error e) : e = PyErr.sampleTooLarge := by
  unfold sample at h
  split at h
  · exact (Except.error.inj h).symm
  · simp at h

theorem pyChoice_error [Inhabited α] {g : Nat} {l : List α} {e : PyErr}
    (h : pyChoice g l = Except.error e) : e = PyErr.emptyChoice := by
  unfold pyChoice at h
  split at h
  · exact (Except.error.inj h).symm
  · simp at h

theorem minByCalories_error {l : List RecipeCard} {e : PyErr}
    (h : minByCalories l = Except.error e) : e = PyErr.emptyMin := by
  unfold minByCalories at h
  split at h
  · exact (Except.error.inj h).symm
  · simp at h

theorem choose_main_error {g : Nat} {mains : List RecipeCard} {sn : String}
    {dc : ℚ} {t : Targets} {e : PyErr}
    (h : choose_main_for_slot g mains sn dc t = Except.error e) :
    e = PyErr.emptyChoice ∨ e = PyErr.emptyMin := by
  unfold choose_main_for_slot at h
  dsimp only at h
  split at h
  · split at h
    · next hmin =>
      injection h with h2
      exact Or.inr (h2 ▸ minByCalories_error hmin)
    · simp at h
  · exact Or.inl (pyChoice_error h)

theorem snackUnderMax_error {t : Targets} {snacks : List RecipeCard} {dayTot : ℚ}
    {g : Nat} {e : PyErr}
    (h : snackUnderMax t snacks dayTot g = Except.error e) : e = PyErr.emptyChoice := by
  unfold snackUnderMax at h
  dsimp only at h
  split at h
  · split at h
    · simp at h
    · split at h
      · next hch =>
        injection h with h2
        exact h2 ▸ pyChoice_error hch
      · simp at h
  · simp at h

theorem pickSnack_error {t : Targets} {snacks : List RecipeCard} {dayTot : ℚ}
    {g : Nat} {e : PyErr}
    (h : pickSnack t snacks dayTot g = Except.error e) :
    e = PyErr.emptyChoice ∨ e = PyErr.emptyMin := by
  unfold pickSnack at h
  split at h
  · next heq =>
    injection h with h2
    exact Or.inl (h2 ▸ snackUnderMax_error heq)
  · simp at h
  · -- the first stage gave no snack; the under-min fallback may run `min`
    split at h
    · split at h
      · next hmin =>
        injection h with h2
        exact Or.inr (h2 ▸ minByCalories_error hmin)
      · simp at h
    · simp at h

theorem autoStep_error {t : Targets} {cm cs sa : List RecipeCard}
    {e0 : Nat × String × Bool} {g : Nat} {dt : Nat → ℚ} {e : PyErr}
    (h : autoStep t cm cs sa e0 g dt = Except.error e) :
    e = PyErr.emptyChoice ∨ e = PyErr.emptyMin := by
  unfold autoStep at h
  dsimp only at h
  split at h
  · -- snack slot
    split at h
    · simp at h
    · split at h
      · next hpick =>
        injection h with h2
        exact h2 ▸ pickSnack_error hpick
      · simp at h
      · simp at h
  · -- main-meal slot
    split at h
    · next hch =>
      injection h with h2
      exact h2 ▸ choose_main_error hch
    · simp at h

theorem autoLoop_error {t : Targets} {cm cs sa : List RecipeCard}
    {entries : List (Nat × String × Bool)} {g : Nat} {dt : Nat → ℚ} {e : PyErr}
    (h : autoLoop t cm cs sa entries g dt = Except.error e) :
    e = PyErr.emptyChoice ∨ e = PyErr.emptyMin := by
  revert h
  induction entries generalizing g dt e with
  | nil => intro h; simp [autoLoop] at h
  | cons e0 rest ih =>
    intro h
    unfold autoLoop at h
    split at h
    · next hstep =>
      injection h with h2
      exact h2 ▸ autoStep_error hstep
    · split at h
      · next hrec =>
        injection h with h2
        exact h2 ▸ ih hrec
      · simp at h

/-! ## The weekly schedule is never empty -/

theorem daySlots_ne_nil (targets : Targets) (day : Nat) :
    daySlots targets day ≠ [] := by
  unfold daySlots
  dsimp only
  intro hcon
  rcases List.append_eq_nil.mp hcon with ⟨h1, _⟩
  rcases List.map_eq_nil_iff.mp h1 with h2
  have h3 := List.range_eq_nil.mp h2
  omega

theorem sched_foldl_ne_nil (targets : Targets) :
    ∀ (l : List Nat) (acc : List (Nat × String × Bool)), acc ≠ [] →
      l.foldl (fun a d => a ++ daySlots targets d) acc ≠ [] := by
  intro l
  induction l with
  | nil => intro acc h; simpa using h
  | cons d ds ih =>
    intro acc h
    simp only [List.foldl_cons]
    exact ih _ (by simp [h])

theorem generate_week_slots_ne_nil (targets : Targets) :
    generate_week_slots targets ≠ [] := by
  unfold generate_week_slots
  have h7 : List.range 7 = [0, 1, 2, 3, 4, 5, 6] := rfl
  rw [h7]
  simp [List.append_eq_nil, daySlots_ne_nil]

/-! ## Shuffling a constant pool is the identity -/

theorem set_replicate (a : α) : ∀ (n i : Nat), (List.replicate n a).set i a = List.replicate n a := by
  intro n
  induction n with
  | zero => intro i; rfl
  | succ m ih =>
    intro i
    cases i with
    | zero => simp [List.replicate]
    | succ k => simp [List.replicate, List.set, ih]

theorem listSwap_replicate (a : α) (n i j : Nat) :
    listSwap (List.replicate n a) i j = List.replicate n a := by
  unfold listSwap
  cases h1 : (List.replicate n a)[i]? <;> cases h2 : (List.replicate n a)[j]? <;> try rfl
  next x y =>
    have hx : x = a := by
      have := List.getElem?_mem h1
      exact (List.eq_of_mem_replicate this)
    have hy : y = a := by
      have := List.getElem?_mem h2
      exact (List.eq_of_mem_replicate this)
    simp [hx, hy, set_replicate]

theorem shuffleGo_replicate (a : α) (n : Nat) :
    ∀ (k g : Nat), (shuffleGo k g (List.replicate n a)).1 = List.replicate n a := by
  intro k
  induction k with
  | zero => intro g; rfl
  | succ m ih =>
    intro g
    rw [show shuffleGo (m + 1) g (List.replicate n a) =
        shuffleGo m (randBelow g (m + 2)).2
          (listSwap (List.replicate n a) (m + 1) (randBelow g (m + 2)).1) from rfl]
    rw [listSwap_replicate]
    exact ih _

theorem shuffle_replicate (g : Nat) (a : α) (n : Nat) :
    (shuffle g (List.replicate n a)).1 = List.replicate n a :=
  shuffleGo_replicate a n _ g

/-- Closed form of a manual build once the pools are known and the main
pool is non-empty. -/
theorem build_manual_shuffled (sel : List (String × Int)) (cards : List RecipeCard)
    (seed : Int) (mp sp : List String) (h : manualPools sel cards = (mp, sp))
    (hne : mp.isEmpty = false) :
    build_week_plan_manual sel cards seed =
      Except.ok (manualSlots cards (shuffle (rngInit seed) mp).1
        (shuffle (shuffle (rngInit seed) mp).2 sp).1 14 0 0) := by
  unfold build_week_plan_manual
  dsimp only
  rw [h]
  simp [hne]

/-! ## C1 -/

/-- C1: automatic planning is deterministic — two calls of
`build_auto_week_plan` on the same card repository, the same `Targets`
record and the same integer seed produce the same `WeekPlan`, field by
field.  In this embedding the whole run, including the single seeded
generator threaded through every random call (spec section 5), is a pure
function of `(cards, targets, seed)`, so the two results coincide. -/
theorem claim1_auto_deterministic (cards : List RecipeCard) (targets : Targets)
    (seed : Int) (p1 p2 : List MealSlot)
    (h1 : build_auto_week_plan cards targets seed = Except.ok p1)
    (h2 : build_auto_week_plan cards targets seed = Except.ok p2) : p1 = p2 := by
  rw [h1] at h2
  exact Except.ok.inj h2

/-- C1 witness: a concrete successful automatic run, on which the
determinism theorem is instantiated. -/
theorem claim1_witness :
    build_auto_week_plan w1cards exTargetsOne 5 = Except.ok w1plan ∧ w1plan = w1plan :=
  ⟨by decide,
   claim1_auto_deterministic w1cards exTargetsOne 5 w1plan w1plan (by decide) (by decide)⟩

/-! ## C2 -/

/-- C2: planning fails with the empty-main-pool `ValidationError` exactly
when the main pool is empty, and only then.  Manual mode: the result is the
`manualNoMains` error precisely when the usable selection entries (known
ids with positive clamped counts) put no card of role main or both into the
main pool, and a plan is produced in every other case, before any slot is
built.  Automatic mode: the result is the `autoNoMains` error precisely
when no card passes the mains eligibility filter, and the zero-slot
`ValidationError` of the schedule check is unreachable.  (The distinct
`random.randint` failure of claim C6 is a different error kind, not one of
the planner's `ValidationError` raise sites of spec section 7.) -/
theorem claim2_validation_error_iff_no_mains :
    (∀ (sel : List (String × Int)) (cards : List RecipeCard) (seed : Int),
      isErrManualNoMains (build_week_plan_manual sel cards seed)
        = (manualPools sel cards).1.isEmpty)
    ∧ (∀ (sel : List (String × Int)) (cards : List RecipeCard) (seed : Int),
      isOkPlan (build_week_plan_manual sel cards seed)
        = !(manualPools sel cards).1.isEmpty)
    ∧ (∀ (cards : List RecipeCard) (targets : Targets) (seed : Int),
      isErrAutoNoMains (build_auto_week_plan cards targets seed)
        = (autoMainsAll cards).isEmpty)
    ∧ (∀ (cards : List RecipeCard) (targets : Targets) (seed : Int),
      isErrNoMealSlots (build_auto_week_plan cards targets seed) = false) := by
  refine ⟨?_, ?_, ?_, ?_⟩
  · intro sel cards seed
    unfold build_week_plan_manual
    dsimp only
    cases h : (manualPools sel cards).1.isEmpty <;> simp [h, isErrManualNoMains]
  · intro sel cards seed
    unfold build_week_plan_manual
    dsimp only
    cases h : (manualPools sel cards).1.isEmpty <;> simp [h, isOkPlan]
  · intro cards targets seed
    have hws : (generate_week_slots targets).isEmpty = false :=
      List.isEmpty_eq_false.mpr (generate_week_slots_ne_nil targets)
    unfold build_auto_week_plan
    dsimp only
    rw [hws]
    cases hm : (autoMainsAll cards).isEmpty with
    | true => simp [isErrAutoNoMains]
    | false =>
      simp only [Bool.false_eq_true, if_false]
      split
      · next herr => simp [isErrAutoNoMains, (randint_error herr)]
      · split
        · next herr => simp [isErrAutoNoMains, (sample_error herr)]
        · split
          · next herr =>
            split at herr
            · simp at herr
            · split at herr
              · next h2 =>
                injection herr with h3
                simp [isErrAutoNoMains, h3 ▸ randint_error h2]
              · next h2 => simp [isErrAutoNoMains, sample_error herr]
          · split
            · next herr =>
              rcases autoLoop_error herr with h | h <;> subst h <;> rfl
            · simp [isErrAutoNoMains]
  · intro cards targets seed
    have hws : (generate_week_slots targets).isEmpty = false :=
      List.isEmpty_eq_false.mpr (generate_week_slots_ne_nil targets)
    unfold build_auto_week_plan
    dsimp only
    rw [hws]
    cases hm : (autoMainsAll cards).isEmpty with
    | true => simp [isErrNoMealSlots]
    | false =>
      simp only [Bool.false_eq_true, if_false]
      split
      · next herr => simp [isErrNoMealSlots, (randint_error herr)]
      · split
        · next herr => simp [isErrNoMealSlots, (sample_error herr)]
        · split
          · next herr =>
            split at herr
            · simp at herr
            · split at herr
              · next h2 =>
                injection herr with h3
                simp [isErrNoMealSlots, h3 ▸ randint_error h2]
              · next h2 => simp [isErrNoMealSlots, sample_error herr]
          · split
            · next herr =>
              rcases autoLoop_error herr with h | h <;> subst h <;> rfl
            · simp [isErrNoMealSlots]

/-! ## C3 counterexample -/

/-- C3 counterexample: the claim "every non-snack slot contains exactly one
id whose card's role supports main" fails.  With the single role-`both`
card `x` selected twice, the manual planner at seed 0 produces slots whose
component list is `[x, x, x]`: the card enters the main pool and the side
pool simultaneously, so all three ids belong to a card whose role supports
main — the count is 3, not 1. -/
theorem claim3_counterexample :
    build_week_plan_manual c3sel c3cards 0 = Except.ok c3plan ∧
    c3plan.headD default ∈ c3plan ∧
    (c3plan.headD default).slot = "Lunch" ∧
    (c3plan.headD default).card_ids = ["x", "x", "x"] ∧
    ((c3plan.headD default).card_ids.countP (fun cid => mainRoleOk c3cards cid)) = 3 ∧
    ((c3plan.headD default).card_ids.countP (fun cid => mainRoleOk c3cards cid)) ≠ 1 := by
  decide

/-! ## C5 -/

/-- C5 counterexample: the spec's end-to-end example is wrong on the code.
At seed 0 (shuffling the constant pools is the identity) every slot of the
plan for `{A: 7, B: 7}` is `[A, B, B]` — after attaching one B the total is
650 and a second B still satisfies `650 + 150 = 800 ≤ 800` — so no slot
equals `[A, B]`, the weekly total is 14 × 800 = 11200 ≠ 9100, and grocery
aggregation scales B by 28/4 = 7, not 3.5 (the 3.5-scaled rice row of the
claim, 175 g, is absent). -/
theorem claim5_counterexample :
    build_week_plan_manual exSelAB exCardsAB 0 = Except.ok c5plan ∧
    (c5plan.headD default).card_ids ≠ ["a", "b"] ∧
    sumCalories c5plan = 11200 ∧ (11200 : ℚ) ≠ 9100 ∧
    aggregate_grocery c5plan exCardsAB = Except.ok c5rows ∧
    ({ item := "rice", qty := qMul 50 (Rat.divInt 14 4), unit := "g"
       grocery_section := "pantry" } : GroceryRow) ∉ c5rows := by
  decide

/-- C5 amended: for every seed, the plan for `{A: 7, B: 7}` has 14 slots,
each with component ids `[A, B, B]` and 800 kcal (the second B fits because
650 + 150 = 800 ≤ 800); the weekly total is 14 × 800 = 11200 kcal, and
grocery aggregation scales A's ingredient quantities by 14/2 = 7 and B's by
28/4 = 7 (B occurs twice per slot). -/
theorem claim5_amended (seed : Int) :
    build_week_plan_manual exSelAB exCardsAB seed = Except.ok c5plan ∧
    c5plan.length = 14 ∧
    (∀ s ∈ c5plan, s.card_ids = ["a", "b", "b"] ∧ s.calories = 800) ∧
    sumCalories c5plan = 11200 ∧
    aggregate_grocery c5plan exCardsAB = Except.ok c5rows := by
  refine ⟨?_, by decide, by decide, by decide, by decide⟩
  rw [build_manual_shuffled exSelAB exCardsAB seed
    (List.replicate 7 "a") (List.replicate 7 "b") (by decide) (by decide)]
  rw [shuffle_replicate, shuffle_replicate]
  decide

/-! ## C6 counterexample -/

/-- C6 counterexample: sampling does not always succeed.  With one eligible
main, no eligible sides (`totalEligibleCount = 1`) and
`minUniqueMainMeals = maxUniqueMainMeals = 2`, only the upper bound is
clamped to the pool size, so the code reaches `randint(2, 1)` — an empty
range — and automatic planning fails instead of sampling a clamped `n`. -/
theorem claim6_counterexample :
    build_auto_week_plan [exMainM] c6targets 0 = Except.error PyErr.emptyRandRange ∧
    (autoMainsAll [exMainM]).isEmpty = false ∧
    autoMinU c6targets = 2 ∧
    autoMaxU c6targets ((autoMainsAll [exMainM]).length + (autoSidesAll [exMainM]).length) = 1 := by
  decide

/-! ## C7 counterexample -/

/-- C7 counterexample: a non-g/oz unit mismatch does not raise the
conversion error.  A card recording `flour` as 1 cup and as 2 tbsp
aggregates successfully to a single `1 cup` row — the tbsp quantity is
silently dropped, and no `ConversionError` is raised. -/
theorem claim7_counterexample :
    aggregate_grocery [exSlotOf "c"] [c7card] =
      Except.ok [{ item := "flour", qty := 1, unit := "cup", grocery_section := "pantry" }] ∧
    isErrConversion (aggregate_grocery [exSlotOf "c"] [c7card]) = false := by
  decide

/-! ## C9 counterexample -/

/-- C9 counterexample: the round-trip is not exact.  A card with the single
raw ingredient `("Oats", 0.25, "cup", "pantry")` used exactly
`servings_default = 1` times aggregates to `("oats", 0.2, "cup", "pantry")`
— the item is lower-cased by normalization and 0.25 rounds half-to-even to
0.2 — so the output rows differ from the card's raw ingredient list. -/
theorem claim9_counterexample :
    aggregate_grocery [exSlotOf "c9"] [c9card] =
      Except.ok [{ item := "oats", qty := Rat.divInt 1 5, unit := "cup"
                   grocery_section := "pantry" }] ∧
    aggregate_grocery [exSlotOf "c9"] [c9card] ≠
      Except.ok (c9card.ingredients.map ingRow) := by
  decide

/-! ## Structural lemmas about the random helpers -/

theorem mem_of_mem_set {l : List α} {n : Nat} {b x : α} (h : x ∈ l.set n b) :
    x = b ∨ x ∈ l := by
  induction l generalizing n with
  | nil => simp [List.set] at h
  | cons y ys ih =>
    cases n with
    | zero =>
      rcases List.mem_cons.mp h with h1 | h1
      · exact Or.inl h1
      · exact Or.inr (List.mem_cons_of_mem _ h1)
    | succ m =>
      rcases List.mem_cons.mp h with h1 | h1
      · exact Or.inr (h1 ▸ List.mem_cons_self _ _)
      · rcases ih h1 with h2 | h2
        · exact Or.inl h2
        · exact Or.inr (List.mem_cons_of_mem _ h2)

theorem listSwap_subset {l : List α} {i j : Nat} {x : α} (h : x ∈ listSwap l i j) :
    x ∈ l := by
  unfold listSwap at h
  split at h
  · next a b h1 h2 =>
    rcases mem_of_mem_set h with h3 | h3
    · exact h3 ▸ List.getElem?_mem h1
    · rcases mem_of_mem_set h3 with h4 | h4
      · exact h4 ▸ List.getElem?_mem h2
      · exact h4
  · exact h

theorem shuffleGo_subset : ∀ (k g : Nat) (l : List α) (x : α),
    x ∈ (shuffleGo k g l).1 → x ∈ l := by
  intro k
  induction k with
  | zero => intro g l x h; exact h
  | succ m ih =>
    intro g l x h
    rw [show shuffleGo (m + 1) g l =
        shuffleGo m (randBelow g (m + 2)).2
          (listSwap l (m + 1) (randBelow g (m + 2)).1) from rfl] at h
    exact listSwap_subset (ih _ _ _ h)

theorem shuffle_subset {g : Nat} {l : List α} {x : α}
    (h : x ∈ (shuffle g l).1) : x ∈ l :=
  shuffleGo_subset _ _ _ _ h

theorem randBelow_lt {s n : Nat} (h : 0 < n) : (randBelow s n).1 < n := by
  unfold randBelow
  dsimp only
  have : max 1 n = n := by omega
  rw [this]
  exact Nat.mod_lt _ h

theorem getD_mod_mem {l : List α} (h : l ≠ []) (i : Nat) (d : α) :
    l.getD (i % l.length) d ∈ l := by
  have hlen : 0 < l.length := List.length_pos.mpr h
  have hlt : i % l.length < l.length := Nat.mod_lt _ hlen
  rw [List.getD_eq_getElem?_getD, List.getElem?_eq_getElem hlt]
  exact List.getElem_mem _

theorem sampleGo_mem [Inhabited α] : ∀ (k g : Nat) (pool : List α),
    k ≤ pool.length → ∀ x ∈ (sampleGo k g pool).1, x ∈ pool := by
  intro k
  induction k with
  | zero => intro g pool _ x hx; simp [sampleGo] at hx
  | succ m ih =>
    intro g pool hk x hx
    have hpos : 0 < pool.length := by omega
    rw [show sampleGo (m + 1) g pool =
        (pool.getD (randBelow g pool.length).1 default
          :: (sampleGo m (randBelow g pool.length).2
                (pool.eraseIdx (randBelow g pool.length).1)).1,
         (sampleGo m (randBelow g pool.length).2
            (pool.eraseIdx (randBelow g pool.length).1)).2) from rfl] at hx
    have hidx : (randBelow g pool.length).1 < pool.length := randBelow_lt hpos
    rcases List.mem_cons.mp hx with h1 | h1
    · subst h1
      rw [List.getD_eq_getElem?_getD, List.getElem?_eq_getElem hidx]
      exact List.getElem_mem _
    · have hne : m ≤ (pool.eraseIdx (randBelow g pool.length).1).length := by
        rw [List.length_eraseIdx]
        simp [hidx]
        omega
      exact List.eraseIdx_subset _ _ (ih _ _ hne x h1)

theorem sampleGo_length [Inhabited α] : ∀ (k g : Nat) (pool : List α),
    k ≤ pool.length → (sampleGo k g pool).1.length = k := by
  intro k
  induction k with
  | zero => intro g pool _; rfl
  | succ m ih =>
    intro g pool hk
    have hpos : 0 < pool.length := by omega
    have hidx : (randBelow g pool.length).1 < pool.length := randBelow_lt hpos
    rw [show sampleGo (m + 1) g pool =
        (pool.getD (randBelow g pool.length).1 default
          :: (sampleGo m (randBelow g pool.length).2
                (pool.eraseIdx (randBelow g pool.length).1)).1,
         (sampleGo m (randBelow g pool.length).2
            (pool.eraseIdx (randBelow g pool.length).1)).2) from rfl]
    have hne : m ≤ (pool.eraseIdx (randBelow g pool.length).1).length := by
      rw [List.length_eraseIdx]
      simp [hidx]
      omega
    simp [ih _ _ hne]

theorem pyChoice_ok_mem [Inhabited α] {g : Nat} {l : List α} (h : l ≠ []) :
    ∃ x g2, pyChoice g l = Except.ok (x, g2) ∧ x ∈ l := by
  have hlen : 0 < l.length := List.length_pos.mpr h
  have hidx : (randBelow g l.length).1 < l.length := randBelow_lt hlen
  refine ⟨l.getD (randBelow g l.length).1 default, (randBelow g l.length).2, ?_, ?_⟩
  · unfold pyChoice
    rw [if_neg (by simp [List.isEmpty_eq_false.mpr h])]
  · rw [List.getD_eq_getElem?_getD, List.getElem?_eq_getElem hidx]
    exact List.getElem_mem _

theorem minByCalories_fold_spec (x : RecipeCard) : ∀ (xs : List RecipeCard),
    (xs.foldl
      (fun acc m =>
        if m.macros_per_serving.calories < acc.macros_per_serving.calories then m else acc)
      x) ∈ x :: xs ∧
    (xs.foldl
      (fun acc m =>
        if m.macros_per_serving.calories < acc.macros_per_serving.calories then m else acc)
      x).macros_per_serving.calories ≤ x.macros_per_serving.calories ∧
    ∀ y ∈ xs,
      (xs.foldl
        (fun acc m =>
          if m.macros_per_serving.calories < acc.macros_per_serving.calories then m else acc)
        x).macros_per_serving.calories ≤ y.macros_per_serving.calories := by
  intro xs
  induction xs generalizing x with
  | nil => exact ⟨List.mem_cons_self _ _, le_refl _, by simp⟩
  | cons z zs ih =>
    simp only [List.foldl_cons]
    by_cases hz : z.macros_per_serving.calories < x.macros_per_serving.calories
    · rw [if_pos hz]
      rcases ih z with ⟨hmem, hle, hall⟩
      refine ⟨List.mem_cons_of_mem _ hmem, le_trans hle (le_of_lt hz), ?_⟩
      intro y hy
      rcases List.mem_cons.mp hy with h1 | h1
      · exact h1 ▸ hle
      · exact hall y h1
    · rw [if_neg hz]
      rcases ih x with ⟨hmem, hle, hall⟩
      refine ⟨?_, hle, ?_⟩
      · rcases List.mem_cons.mp hmem with h1 | h1
        · rw [h1]
          exact List.mem_cons_self _ _
        · exact List.mem_cons_of_mem _ (List.mem_cons_of_mem _ h1)
      · intro y hy
        rcases List.mem_cons.mp hy with h1 | h1
        · subst h1
          exact le_trans hle (le_of_not_lt hz)
        · exact hall y h1

theorem minByCalories_spec {l : List RecipeCard} (h : l ≠ []) :
    ∃ m, minByCalories l = Except.ok m ∧ m ∈ l ∧
      ∀ y ∈ l, m.macros_per_serving.calories ≤ y.macros_per_serving.calories := by
  cases l with
  | nil => exact absurd rfl h
  | cons x xs =>
    rcases minByCalories_fold_spec x xs with ⟨hmem, hle, hall⟩
    refine ⟨_, rfl, hmem, ?_⟩
    intro y hy
    rcases List.mem_cons.mp hy with h1 | h1
    · exact h1 ▸ hle
    · exact hall y h1

/-! ## Side-attachment loop invariants -/

theorem manualSideAccept_eq (cal newCal : ℚ) :
    manualSideAccept cal newCal = decide (newCal ≤ 800) := by
  unfold manualSideAccept
  split <;> rfl

theorem manualSideAccept_le {cal newCal : ℚ}
    (h : manualSideAccept cal newCal = true) : newCal ≤ 800 := by
  rw [manualSideAccept_eq] at h
  exact of_decide_eq_true h

theorem autoWithinMealBand_le {cal newCal : ℚ}
    (h : autoWithinMealBand cal newCal = true) : newCal ≤ 800 := by
  unfold autoWithinMealBand at h
  rcases Bool.or_eq_true_iff.mp h with h1 | h1
  · exact of_decide_eq_true (Bool.and_eq_true_iff.mp h1).2
  · exact of_decide_eq_true (Bool.and_eq_true_iff.mp h1).2

theorem attachSidesManual_spec (cards : List RecipeCard) (sp : List String)
    (hsp : sp ≠ []) : ∀ (n si : Nat) (acc : SlotAcc),
    ∃ extra,
      (attachSidesManual cards sp n si acc).2.comp_ids = acc.comp_ids ++ extra ∧
      (∀ sid ∈ extra, sid ∈ sp) ∧
      (acc.comp_ids.length ≤ 3 →
        (attachSidesManual cards sp n si acc).2.comp_ids.length ≤ 3) ∧
      ((2 ≤ acc.comp_ids.length → acc.cal ≤ 800) →
        2 ≤ (attachSidesManual cards sp n si acc).2.comp_ids.length →
        (attachSidesManual cards sp n si acc).2.cal ≤ 800) := by
  intro n
  induction n with
  | zero =>
    intro si acc
    exact ⟨[], by simp [attachSidesManual], by simp, by simp [attachSidesManual],
      by intro h1 h2; simpa [attachSidesManual] using h1 (by simpa [attachSidesManual] using h2)⟩
  | succ m ih =>
    intro si acc
    by_cases hlen : acc.comp_ids.length < 3
    · set sid := sp.getD (si % sp.length) "" with hsid
      set side := (findCard? cards sid).getD default with hside
      set newCal := qAdd acc.cal side.macros_per_serving.calories with hnc
      have hstep : attachSidesManual cards sp (m + 1) si acc =
          if manualSideAccept acc.cal newCal then
            attachSidesManual cards sp m (si + 1)
              { comp_ids := acc.comp_ids ++ [sid]
                cal := newCal
                protein := qAdd acc.protein side.macros_per_serving.protein_g
                carbs := qAdd acc.carbs side.macros_per_serving.carbs_g
                fat := qAdd acc.fat side.macros_per_serving.fat_g }
          else attachSidesManual cards sp m (si + 1) acc := by
        rw [show attachSidesManual cards sp (m + 1) si acc =
          if acc.comp_ids.length < 3 then
            (if manualSideAccept acc.cal newCal then
              attachSidesManual cards sp m (si + 1)
                { comp_ids := acc.comp_ids ++ [sid]
                  cal := newCal
                  protein := qAdd acc.protein side.macros_per_serving.protein_g
                  carbs := qAdd acc.carbs side.macros_per_serving.carbs_g
                  fat := qAdd acc.fat side.macros_per_serving.fat_g }
            else attachSidesManual cards sp m (si + 1) acc)
          else (si, acc) from rfl]
        rw [if_pos hlen]
      by_cases hacc : manualSideAccept acc.cal newCal = true
      · rw [hstep, if_pos hacc]
        rcases ih (si + 1)
            { comp_ids := acc.comp_ids ++ [sid]
              cal := newCal
              protein := qAdd acc.protein side.macros_per_serving.protein_g
              carbs := qAdd acc.carbs side.macros_per_serving.carbs_g
              fat := qAdd acc.fat side.macros_per_serving.fat_g } with
          ⟨extra, hcomp, hmem, hl, hinv⟩
        refine ⟨sid :: extra, ?_, ?_, ?_, ?_⟩
        · rw [hcomp]
          simp
        · intro s hs
          rcases List.mem_cons.mp hs with h1 | h1
          · exact h1 ▸ getD_mod_mem hsp si ""
          · exact hmem s h1
        · intro _
          exact hl (by simp; omega)
        · intro _ h2
          refine hinv ?_ h2
          intro _
          exact manualSideAccept_le hacc
      · rw [hstep, if_neg hacc]
        exact ih (si + 1) acc
    · have hstep : attachSidesManual cards sp (m + 1) si acc = (si, acc) := by
        rw [show attachSidesManual cards sp (m + 1) si acc =
          if acc.comp_ids.length < 3 then
            (if manualSideAccept acc.cal
                (qAdd acc.cal
                  (((findCard? cards (sp.getD (si % sp.length) "")).getD
                    default).macros_per_serving.calories)) then
              attachSidesManual cards sp m (si + 1)
                { comp_ids := acc.comp_ids ++ [sp.getD (si % sp.length) ""]
                  cal := qAdd acc.cal
                    (((findCard? cards (sp.getD (si % sp.length) "")).getD
                      default).macros_per_serving.calories)
                  protein := qAdd acc.protein
                    (((findCard? cards (sp.getD (si % sp.length) "")).getD
                      default).macros_per_serving.protein_g)
                  carbs := qAdd acc.carbs
                    (((findCard? cards (sp.getD (si % sp.length) "")).getD
                      default).macros_per_serving.carbs_g)
                  fat := qAdd acc.fat
                    (((findCard? cards (sp.getD (si % sp.length) "")).getD
                      default).macros_per_serving.fat_g) }
            else attachSidesManual cards sp m (si + 1) acc)
          else (si, acc) from rfl]
        rw [if_neg hlen]
      rw [hstep]
      exact ⟨[], by simp, by simp, fun h => h, fun h1 h2 => h1 h2⟩

theorem attachSidesAuto_cons (targets : Targets) (sn : String) (dayTot : ℚ)
    (side : RecipeCard) (rest : List RecipeCard) (acc : SlotAcc) :
    attachSidesAuto targets sn dayTot (side :: rest) acc =
      if acc.comp_ids.length ≥ 3 then acc
      else if ¬ card_supports_slot side sn false then
        attachSidesAuto targets sn dayTot rest acc
      else if autoWithinMealBand acc.cal (qAdd acc.cal side.macros_per_serving.calories)
          && autoDayCapOk targets dayTot (qAdd dayTot side.macros_per_serving.calories) then
        attachSidesAuto targets sn dayTot rest
          { comp_ids := acc.comp_ids ++ [side.id]
            cal := qAdd acc.cal side.macros_per_serving.calories
            protein := qAdd acc.protein side.macros_per_serving.protein_g
            carbs := qAdd acc.carbs side.macros_per_serving.carbs_g
            fat := qAdd acc.fat side.macros_per_serving.fat_g }
      else attachSidesAuto targets sn dayTot rest acc := rfl

theorem attachSidesAuto_spec (targets : Targets) (sn : String) (dayTot : ℚ) :
    ∀ (cands : List RecipeCard) (acc : SlotAcc),
    ∃ extra,
      (attachSidesAuto targets sn dayTot cands acc).comp_ids = acc.comp_ids ++ extra ∧
      (∀ sid ∈ extra, ∃ c, c ∈ cands ∧ c.id = sid) ∧
      (acc.comp_ids.length ≤ 3 →
        (attachSidesAuto targets sn dayTot cands acc).comp_ids.length ≤ 3) ∧
      ((2 ≤ acc.comp_ids.length → acc.cal ≤ 800) →
        2 ≤ (attachSidesAuto targets sn dayTot cands acc).comp_ids.length →
        (attachSidesAuto targets sn dayTot cands acc).cal ≤ 800) := by
  intro cands
  induction cands with
  | nil =>
    intro acc
    exact ⟨[], by simp [attachSidesAuto], by simp, fun h => by simpa [attachSidesAuto] using h,
      fun h1 h2 => h1 (by simpa [attachSidesAuto] using h2)⟩
  | cons side rest ih =>
    intro acc
    by_cases hlen : acc.comp_ids.length ≥ 3
    · have hstep : attachSidesAuto targets sn dayTot (side :: rest) acc = acc := by
        unfold attachSidesAuto
        rw [if_pos hlen]
      rw [hstep]
      exact ⟨[], by simp, by simp, fun h => h, fun h1 h2 => h1 h2⟩
    · by_cases hsup : card_supports_slot side sn false = true
      · set newCal := qAdd acc.cal side.macros_per_serving.calories with hnc
        by_cases hok : (autoWithinMealBand acc.cal newCal
            && autoDayCapOk targets dayTot
                (qAdd dayTot side.macros_per_serving.calories)) = true
        · have hstep : attachSidesAuto targets sn dayTot (side :: rest) acc =
              attachSidesAuto targets sn dayTot rest
                { comp_ids := acc.comp_ids ++ [side.id]
                  cal := newCal
                  protein := qAdd acc.protein side.macros_per_serving.protein_g
                  carbs := qAdd acc.carbs side.macros_per_serving.carbs_g
                  fat := qAdd acc.fat side.macros_per_serving.fat_g } := by
            rw [attachSidesAuto_cons, if_neg hlen, if_neg (by simp [hsup]), if_pos hok]
          rw [hstep]
          rcases ih
              { comp_ids := acc.comp_ids ++ [side.id]
                cal := newCal
                protein := qAdd acc.protein side.macros_per_serving.protein_g
                carbs := qAdd acc.carbs side.macros_per_serving.carbs_g
                fat := qAdd acc.fat side.macros_per_serving.fat_g } with
            ⟨extra, hcomp, hmem, hl, hinv⟩
          refine ⟨side.id :: extra, ?_, ?_, ?_, ?_⟩
          · rw [hcomp]
            simp
          · intro s hs
            rcases List.mem_cons.mp hs with h1 | h1
            · exact ⟨side, List.mem_cons_self _ _, h1.symm⟩
            · rcases hmem s h1 with ⟨c, hc1, hc2⟩
              exact ⟨c, List.mem_cons_of_mem _ hc1, hc2⟩
          · intro _
            refine hl ?_
            simp
            omega
          · intro _ h2
            refine hinv ?_ h2
            intro _
            exact autoWithinMealBand_le (Bool.and_eq_true_iff.mp hok).1
        · have hstep : attachSidesAuto targets sn dayTot (side :: rest) acc =
              attachSidesAuto targets sn dayTot rest acc := by
            rw [attachSidesAuto_cons, if_neg hlen, if_neg (by simp [hsup]), if_neg hok]
          rw [hstep]
          rcases ih acc with ⟨extra, hcomp, hmem, hl, hinv⟩
          refine ⟨extra, hcomp, ?_, hl, hinv⟩
          intro s hs
          rcases hmem s hs with ⟨c, hc1, hc2⟩
          exact ⟨c, List.mem_cons_of_mem _ hc1, hc2⟩
      · have hstep : attachSidesAuto targets sn dayTot (side :: rest) acc =
            attachSidesAuto targets sn dayTot rest acc := by
          rw [attachSidesAuto_cons, if_neg hlen, if_pos (by simp [hsup])]
        rw [hstep]
        rcases ih acc with ⟨extra, hcomp, hmem, hl, hinv⟩
        refine ⟨extra, hcomp, ?_, hl, hinv⟩
        intro s hs
        rcases hmem s hs with ⟨c, hc1, hc2⟩
        exact ⟨c, List.mem_cons_of_mem _ hc1, hc2⟩

theorem manualSlots_cons (cards : List RecipeCard) (mp sp : List String)
    (r i si : Nat) :
    manualSlots cards mp sp (r + 1) i si =
      { day := i / 2
        slot := if i % 2 = 0 then "Lunch" else "Dinner"
        card_ids := (if sp.length ≠ 0 then
            attachSidesManual cards sp sp.length si (manualAcc0 cards mp i)
          else (si, manualAcc0 cards mp i)).2.comp_ids
        calories := (if sp.length ≠ 0 then
            attachSidesManual cards sp sp.length si (manualAcc0 cards mp i)
          else (si, manualAcc0 cards mp i)).2.cal
        protein_g := (if sp.length ≠ 0 then
            attachSidesManual cards sp sp.length si (manualAcc0 cards mp i)
          else (si, manualAcc0 cards mp i)).2.protein
        carbs_g := (if sp.length ≠ 0 then
            attachSidesManual cards sp sp.length si (manualAcc0 cards mp i)
          else (si, manualAcc0 cards mp i)).2.carbs
        fat_g := (if sp.length ≠ 0 then
            attachSidesManual cards sp sp.length si (manualAcc0 cards mp i)
          else (si, manualAcc0 cards mp i)).2.fat }
      :: manualSlots cards mp sp r (i + 1)
          (if sp.length ≠ 0 then
            attachSidesManual cards sp sp.length si (manualAcc0 cards mp i)
          else (si, manualAcc0 cards mp i)).1 := rfl

theorem manualSlots_shape (cards : List RecipeCard) (mp sp : List String)
    (hmp : mp ≠ []) :
    ∀ (r i si : Nat) (s : MealSlot), s ∈ manualSlots cards mp sp r i si →
      ∃ mid rest, s.card_ids = mid :: rest ∧ mid ∈ mp ∧ rest.length ≤ 2 ∧
        (∀ sid ∈ rest, sid ∈ sp) ∧ (800 < s.calories → rest = []) := by
  intro r
  induction r with
  | zero => intro i si s hs; simp [manualSlots] at hs
  | succ m ih =>
    intro i si s hs
    rw [manualSlots_cons] at hs
    rcases List.mem_cons.mp hs with h1 | h1
    · subst h1
      by_cases hsp0 : sp.length ≠ 0
      · have hspne : sp ≠ [] := by
          intro hc
          exact hsp0 (by simp [hc])
        rcases attachSidesManual_spec cards sp hspne sp.length si
            (manualAcc0 cards mp i) with ⟨extra, hcomp, hmem, hl, hinv⟩
        have hacclen : (manualAcc0 cards mp i).comp_ids.length = 1 := rfl
        have hlen3 : (attachSidesManual cards sp sp.length si
            (manualAcc0 cards mp i)).2.comp_ids.length ≤ 3 := by
          refine hl ?_
          rw [hacclen]
          omega
        have hextra2 : extra.length ≤ 2 := by
          have h3 := hlen3
          rw [hcomp] at h3
          simp [manualAcc0] at h3
          omega
        refine ⟨mp.getD (i % mp.length) "", extra, ?_, getD_mod_mem hmp i "", hextra2,
          hmem, ?_⟩
        · simp only [if_pos hsp0]
          rw [hcomp]
          rfl
        · intro hcal
          simp only [if_pos hsp0] at hcal
          have hres := hinv (by
            rw [hacclen]
            intro h2
            omega)
          by_contra hne
          have hlen2 : 2 ≤ (attachSidesManual cards sp sp.length si
              (manualAcc0 cards mp i)).2.comp_ids.length := by
            rw [hcomp]
            have : extra ≠ [] := hne
            have : 0 < extra.length := List.length_pos.mpr this
            simp [manualAcc0]
            omega
          exact absurd hcal (not_lt.mpr (hres hlen2))
      · refine ⟨mp.getD (i % mp.length) "", [], ?_, getD_mod_mem hmp i "", by simp,
          by simp, fun _ => rfl⟩
        simp only [if_neg hsp0]
        rfl
    · exact ih _ _ _ h1

/-! ## Pool membership facts -/

theorem manualPools_go (cards : List RecipeCard) :
    ∀ (sel : List (String × Int)) (acc : List String × List String),
      (∀ cid ∈ acc.1, mainRoleOk cards cid = true) →
      (∀ cid ∈ acc.2, sideRoleOk cards cid = true) →
      (∀ cid ∈ (sel.foldl
        (fun pools entry =>
          match findCard? cards entry.1 with
          | none => pools
          | some card =>
            let use := min entry.2 card.meal_freq_cap_per_week
            if use ≤ 0 then pools
            else
              (if card.role = "main" ∨ card.role = "both"
                 then pools.1 ++ List.replicate use.toNat entry.1 else pools.1,
               if card.role = "side" ∨ card.role = "both"
                 then pools.2 ++ List.replicate use.toNat entry.1 else pools.2))
        acc).1, mainRoleOk cards cid = true) ∧
      (∀ cid ∈ (sel.foldl
        (fun pools entry =>
          match findCard? cards entry.1 with
          | none => pools
          | some card =>
            let use := min entry.2 card.meal_freq_cap_per_week
            if use ≤ 0 then pools
            else
              (if card.role = "main" ∨ card.role = "both"
                 then pools.1 ++ List.replicate use.toNat entry.1 else pools.1,
               if card.role = "side" ∨ card.role = "both"
                 then pools.2 ++ List.replicate use.toNat entry.1 else pools.2))
        acc).2, sideRoleOk cards cid = true) := by
  intro sel
  induction sel with
  | nil => intro acc h1 h2; exact ⟨h1, h2⟩
  | cons entry rest ih =>
    intro acc h1 h2
    simp only [List.foldl_cons]
    cases hfind : findCard? cards entry.1 with
    | none => exact ih acc h1 h2
    | some card =>
      by_cases huse : min entry.2 card.meal_freq_cap_per_week ≤ 0
      · simp only [hfind, if_pos huse]
        exact ih acc h1 h2
      · simp only [hfind, if_neg huse]
        refine ih _ ?_ ?_
        · intro cid hcid
          by_cases hrole : card.role = "main" ∨ card.role = "both"
          · rw [if_pos hrole] at hcid
            rcases List.mem_append.mp hcid with hcid | hcid
            · exact h1 cid hcid
            · have := (List.eq_of_mem_replicate hcid)
              subst this
              unfold mainRoleOk
              rw [hfind]
              rcases hrole with hr | hr <;> simp [Option.any, hr]
          · rw [if_neg hrole] at hcid
            exact h1 cid hcid
        · intro cid hcid
          by_cases hrole : card.role = "side" ∨ card.role = "both"
          · rw [if_pos hrole] at hcid
            rcases List.mem_append.mp hcid with hcid | hcid
            · exact h2 cid hcid
            · have := (List.eq_of_mem_replicate hcid)
              subst this
              unfold sideRoleOk
              rw [hfind]
              rcases hrole with hr | hr <;> simp [Option.any, hr]
          · rw [if_neg hrole] at hcid
            exact h2 cid hcid

theorem manualPools_main_role {sel : List (String × Int)} {cards : List RecipeCard}
    {cid : String} (h : cid ∈ (manualPools sel cards).1) : mainRoleOk cards cid = true :=
  (manualPools_go cards sel ([], []) (by simp) (by simp)).1 cid h

theorem manualPools_side_role {sel : List (String × Int)} {cards : List RecipeCard}
    {cid : String} (h : cid ∈ (manualPools sel cards).2) : sideRoleOk cards cid = true :=
  (manualPools_go cards sel ([], []) (by simp) (by simp)).2 cid h

/-! ## Shuffling preserves length -/

theorem listSwap_length (l : List α) (i j : Nat) :
    (listSwap l i j).length = l.length := by
  unfold listSwap
  split <;> simp

theorem shuffleGo_length : ∀ (k g : Nat) (l : List α),
    (shuffleGo k g l).1.length = l.length := by
  intro k
  induction k with
  | zero => intro g l; rfl
  | succ m ih =>
    intro g l
    rw [show shuffleGo (m + 1) g l =
        shuffleGo m (randBelow g (m + 2)).2
          (listSwap l (m + 1) (randBelow g (m + 2)).1) from rfl]
    rw [ih, listSwap_length]

theorem shuffle_ne_nil {g : Nat} {l : List α} (h : l ≠ []) :
    (shuffle g l).1 ≠ [] := by
  intro hc
  have h1 : (shuffle g l).1.length = l.length := shuffleGo_length _ _ _
  rw [hc] at h1
  exact h (List.length_eq_zero.mp h1.symm)

/-! ## Main selection facts -/

theorem compatMains_ne_nil {mains : List RecipeCard} {sn : String} (h : mains ≠ []) :
    compatMains mains sn ≠ [] := by
  unfold compatMains
  dsimp only
  split
  · exact h
  · next hne => exact fun hc => hne (by simp [hc])

theorem compatMains_subset {mains : List RecipeCard} {sn : String} {x : RecipeCard}
    (h : x ∈ compatMains mains sn) : x ∈ mains := by
  unfold compatMains at h
  dsimp only at h
  split at h
  · exact h
  · exact List.mem_of_mem_filter h

theorem withinMains_subset {t : Targets} {dc : ℚ} {compat : List RecipeCard}
    {x : RecipeCard} (h : x ∈ withinMains t dc compat) : x ∈ compat := by
  unfold withinMains at h
  split at h
  · exact List.mem_of_mem_filter h
  · simp at h

theorem choose_main_ok {g : Nat} {mains : List RecipeCard} {sn : String}
    {dc : ℚ} {t : Targets} (h : mains ≠ []) :
    ∃ m g2, choose_main_for_slot g mains sn dc t = Except.ok (m, g2) ∧ m ∈ mains := by
  unfold choose_main_for_slot
  dsimp only
  by_cases hw : (withinMains t dc (compatMains mains sn)).isEmpty = true
  · rw [if_pos hw]
    rcases minByCalories_spec (compatMains_ne_nil h) with ⟨m, hm, hmem, _⟩
    rw [hm]
    exact ⟨m, g, rfl, compatMains_subset hmem⟩
  · rw [if_neg hw]
    have hne : withinMains t dc (compatMains mains sn) ≠ [] := by
      intro hc
      exact hw (by simp [hc])
    rcases @pyChoice_ok_mem _ _ g _ hne with ⟨x, g2, hch, hxmem⟩
    rw [hch]
    exact ⟨x, g2, rfl, compatMains_subset (withinMains_subset hxmem)⟩

theorem pyChoice_mem_of_ok [Inhabited α] {g g2 : Nat} {l : List α} {x : α}
    (h : pyChoice g l = Except.ok (x, g2)) : x ∈ l := by
  unfold pyChoice at h
  split at h
  · simp at h
  · next hne =>
    injection h with h1
    have hlen : 0 < l.length := by
      cases l with
      | nil => simp at hne
      | cons a as => simp
    have hidx : (randBelow g l.length).1 < l.length := randBelow_lt hlen
    have hx : x = l.getD (randBelow g l.length).1 default :=
      (congrArg Prod.fst h1).symm
    rw [hx, List.getD_eq_getElem?_getD, List.getElem?_eq_getElem hidx]
    exact List.getElem_mem _

theorem snackUnderMax_some_mem {t : Targets} {snacks : List RecipeCard} {dayTot : ℚ}
    {g g1 : Nat} {s : RecipeCard}
    (h : snackUnderMax t snacks dayTot g = Except.ok (some s, g1)) : s ∈ snacks := by
  unfold snackUnderMax at h
  dsimp only at h
  split at h
  · split at h
    · simp at h
    · split at h
      · simp at h
      · next pr hch =>
        injection h with h1
        have h2 : some pr.1 = some s := congrArg Prod.fst h1
        injection h2 with h3
        exact List.mem_of_mem_filter (h3 ▸ pyChoice_mem_of_ok hch)
  · simp at h

theorem pickSnack_some_mem {t : Targets} {snacks : List RecipeCard} {dayTot : ℚ}
    {g g1 : Nat} {s : RecipeCard}
    (h : pickSnack t snacks dayTot g = Except.ok (some s, g1)) : s ∈ snacks := by
  unfold pickSnack at h
  split at h
  · simp at h
  · next s2 g2 heq =>
    injection h with h1
    have h2 : some s2 = some s := congrArg Prod.fst h1
    injection h2 with h3
    exact h3 ▸ snackUnderMax_some_mem heq
  · split at h
    · split at h
      · simp at h
      · next hmin =>
        injection h with h1
        have h2 := congrArg Prod.fst h1
        simp only at h2
        injection h2 with h3
        rcases @minByCalories_spec snacks (by
          intro hc
          subst hc
          simp [minByCalories] at hmin) with ⟨m, hm, hmem, _⟩
        rw [hm] at hmin
        injection hmin with h4
        rw [← h3, ← h4]
        exact hmem
    · simp at h

/-! ## Auto-mode slot shapes -/

theorem autoStep_snack_shape {t : Targets} {cm cs sa : List RecipeCard}
    {e : Nat × String × Bool} {g : Nat} {dt : Nat → ℚ} {opt : Option MealSlot}
    {g1 : Nat} {t1 : Nat → ℚ} (he : e.2.2 = true)
    (h : autoStep t cm cs sa e g dt = Except.ok (opt, g1, t1)) :
    opt = none ∨ ∃ c slot, c ∈ sa ∧ opt = some slot ∧ slot.card_ids = [c.id] := by
  unfold autoStep at h
  rw [if_pos he] at h
  split at h
  · injection h with h1
    exact Or.inl (congrArg Prod.fst h1).symm
  · split at h
    · simp at h
    · next g2 heq =>
      injection h with h1
      exact Or.inl (congrArg Prod.fst h1).symm
    · next snack g2 heq =>
      injection h with h1
      have h2 := congrArg Prod.fst h1
      simp only at h2
      exact Or.inr ⟨snack, _, pickSnack_some_mem heq, h2.symm, rfl⟩

theorem autoStep_main_shape {t : Targets} {cm cs sa : List RecipeCard}
    {e : Nat × String × Bool} {g : Nat} {dt : Nat → ℚ}
    (he : e.2.2 = false) (hcm : cm ≠ []) :
    ∃ slot g1 t1, autoStep t cm cs sa e g dt = Except.ok (some slot, g1, t1) ∧
      slot.day = e.1 ∧ slot.slot = e.2.1 ∧
      ∃ m rest, m ∈ cm ∧ slot.card_ids = m.id :: rest ∧ rest.length ≤ 2 ∧
        (∀ sid ∈ rest, ∃ c, c ∈ cs ∧ c.id = sid) ∧
        (800 < slot.calories → rest = []) := by
  rcases @choose_main_ok g cm e.2.1 (dt e.1) t hcm with
    ⟨m, g2, hch, hmmem⟩
  set sh := if cs.isEmpty then (([] : List RecipeCard), g2) else shuffle g2 cs with hsh
  set acc0 : SlotAcc :=
    { comp_ids := [m.id]
      cal := m.macros_per_serving.calories
      protein := m.macros_per_serving.protein_g
      carbs := m.macros_per_serving.carbs_g
      fat := m.macros_per_serving.fat_g } with hacc0
  have hsub : ∀ x ∈ sh.1, x ∈ cs := by
    intro x hx
    rw [hsh] at hx
    by_cases hcse : cs.isEmpty = true
    · rw [if_pos hcse] at hx
      simp at hx
    · rw [if_neg hcse] at hx
      exact shuffle_subset hx
  rcases attachSidesAuto_spec t e.2.1 (dt e.1) sh.1 acc0 with
    ⟨extra, hcomp, hmem, hl, hinv⟩
  refine ⟨{ day := e.1, slot := e.2.1
            card_ids := (attachSidesAuto t e.2.1 (dt e.1) sh.1 acc0).comp_ids
            calories := (attachSidesAuto t e.2.1 (dt e.1) sh.1 acc0).cal
            protein_g := (attachSidesAuto t e.2.1 (dt e.1) sh.1 acc0).protein
            carbs_g := (attachSidesAuto t e.2.1 (dt e.1) sh.1 acc0).carbs
            fat_g := (attachSidesAuto t e.2.1 (dt e.1) sh.1 acc0).fat },
    sh.2,
    fun d => if d = e.1 then qAdd (dt d) (attachSidesAuto t e.2.1 (dt e.1) sh.1 acc0).cal
             else dt d,
    ?_, rfl, rfl, ?_⟩
  · unfold autoStep
    rw [if_neg (by simp [he])]
    rw [hch]
  · have hacclen : acc0.comp_ids.length = 1 := rfl
    refine ⟨m, extra, hmmem, ?_, ?_, ?_, ?_⟩
    · rw [hcomp]
      rfl
    · have h3 := hl (by rw [hacclen]; omega)
      rw [hcomp] at h3
      simp [hacc0] at h3
      omega
    · intro sid hsid
      rcases hmem sid hsid with ⟨c, hc1, hc2⟩
      exact ⟨c, hsub c hc1, hc2⟩
    · intro hcal
      have hres := hinv (by rw [hacclen]; intro h2; omega)
      by_contra hne
      have hlen2 : 2 ≤ (attachSidesAuto t e.2.1 (dt e.1) sh.1 acc0).comp_ids.length := by
        rw [hcomp]
        have : 0 < extra.length := List.length_pos.mpr hne
        simp [hacc0]
        omega
      exact absurd hcal (not_lt.mpr (hres hlen2))

theorem autoLoop_cons (t : Targets) (cm cs sa : List RecipeCard)
    (e : Nat × String × Bool) (rest : List (Nat × String × Bool))
    (g : Nat) (totals : Nat → ℚ) :
    autoLoop t cm cs sa (e :: rest) g totals =
      match autoStep t cm cs sa e g totals with
      | Except.error err => Except.error err
      | Except.ok (opt, g1, t1) =>
        match autoLoop t cm cs sa rest g1 t1 with
        | Except.error err => Except.error err
        | Except.ok (tail, g2, t2) =>
          Except.ok ((match opt with | some s => s :: tail | none => tail), g2, t2) := rfl

theorem autoLoop_shape {t : Targets} {cm cs sa : List RecipeCard} (hcm : cm ≠ []) :
    ∀ (entries : List (Nat × String × Bool)) (g : Nat) (dt : Nat → ℚ)
      (slots : List MealSlot) (g2 : Nat) (t2 : Nat → ℚ),
      autoLoop t cm cs sa entries g dt = Except.ok (slots, g2, t2) →
      ∀ s ∈ slots,
        (∃ mid rest, s.card_ids = mid :: rest ∧ (∃ m, m ∈ cm ∧ m.id = mid) ∧
          rest.length ≤ 2 ∧ (∀ sid ∈ rest, ∃ c, c ∈ cs ∧ c.id = sid) ∧
          (800 < s.calories → rest = []))
        ∨ (∃ c, c ∈ sa ∧ s.card_ids = [c.id]) := by
  intro entries
  induction entries with
  | nil =>
    intro g dt slots g2 t2 h s hs
    have h0 : autoLoop t cm cs sa [] g dt = Except.ok ([], g, dt) := rfl
    rw [h0] at h
    injection h with h1
    have h2 : ([] : List MealSlot) = slots := congrArg (fun p => p.1) h1
    rw [← h2] at hs
    simp at hs
  | cons e rest ih =>
    intro g dt slots g2 t2 h s hs
    rw [autoLoop_cons] at h
    cases hstep : autoStep t cm cs sa e g dt with
    | error err => rw [hstep] at h; simp at h
    | ok res =>
      obtain ⟨opt, g1, t1⟩ := res
      rw [hstep] at h
      dsimp only at h
      cases hrec : autoLoop t cm cs sa rest g1 t1 with
      | error err => rw [hrec] at h; simp at h
      | ok res2 =>
        obtain ⟨tail, gg, tt⟩ := res2
        rw [hrec] at h
        dsimp only at h
        cases opt with
        | none =>
          injection h with h1
          have hslots : tail = slots := congrArg (fun p => p.1) h1
          rw [← hslots] at hs
          exact ih g1 t1 tail gg tt hrec s hs
        | some s0 =>
          injection h with h1
          have hslots : s0 :: tail = slots := congrArg (fun p => p.1) h1
          rw [← hslots] at hs
          rcases List.mem_cons.mp hs with h2 | h2
          · subst h2
            cases hsnack : e.2.2 with
            | true =>
              rcases autoStep_snack_shape hsnack hstep with h3 | ⟨c, slot2, hc, hopt, hids⟩
              · simp at h3
              · injection hopt with h4
                exact Or.inr ⟨c, hc, h4 ▸ hids⟩
            | false =>
              rcases @autoStep_main_shape t cm cs sa e g dt hsnack hcm with
                ⟨slot2, gg1, tt1, heq, hday, hslot, m, rest2, hm1, hids, hlen, hsides, hcal⟩
              rw [heq] at hstep
              injection hstep with h5
              have h6 : some slot2 = some s := congrArg (fun p => p.1) h5
              injection h6 with h7
              exact Or.inl ⟨m.id, rest2, h7 ▸ hids, ⟨m, hm1, rfl⟩, hlen,
                fun sid hsid => hsides sid hsid, h7 ▸ hcal⟩
          · exact ih g1 t1 tail gg tt hrec s h2

theorem autoLoop_count {t : Targets} {cm cs sa : List RecipeCard} (hcm : cm ≠ [])
    (d : Nat) (name : String) :
    ∀ (entries : List (Nat × String × Bool)) (g : Nat) (dt : Nat → ℚ)
      (slots : List MealSlot) (g2 : Nat) (t2 : Nat → ℚ),
      autoLoop t cm cs sa entries g dt = Except.ok (slots, g2, t2) →
      entries.countP (fun e => e.1 == d && e.2.1 == name && !e.2.2) ≤
        slots.countP (slotMatches cm d name) := by
  intro entries
  induction entries with
  | nil =>
    intro g dt slots g2 t2 h
    have h0 : autoLoop t cm cs sa [] g dt = Except.ok ([], g, dt) := rfl
    rw [h0] at h
    injection h with h1
    have h2 : ([] : List MealSlot) = slots := congrArg (fun p => p.1) h1
    rw [← h2]
    simp
  | cons e rest ih =>
    intro g dt slots g2 t2 h
    rw [autoLoop_cons] at h
    cases hstep : autoStep t cm cs sa e g dt with
    | error err => rw [hstep] at h; simp at h
    | ok res =>
      obtain ⟨opt, g1, t1⟩ := res
      rw [hstep] at h
      dsimp only at h
      cases hrec : autoLoop t cm cs sa rest g1 t1 with
      | error err => rw [hrec] at h; simp at h
      | ok res2 =>
        obtain ⟨tail, gg, tt⟩ := res2
        rw [hrec] at h
        dsimp only at h
        have htail := ih g1 t1 tail gg tt hrec
        cases hpe : (e.1 == d && e.2.1 == name && !e.2.2) with
        | false =>
          rw [List.countP_cons_of_neg _ _ (by simp [hpe])]
          cases opt with
          | none =>
            injection h with h1
            have hslots : tail = slots := congrArg (fun p => p.1) h1
            rw [← hslots]
            exact htail
          | some s0 =>
            injection h with h1
            have hslots : s0 :: tail = slots := congrArg (fun p => p.1) h1
            rw [← hslots]
            calc rest.countP _ ≤ tail.countP (slotMatches cm d name) := htail
              _ ≤ (s0 :: tail).countP (slotMatches cm d name) := by
                  rw [List.countP_cons]
                  omega
        | true =>
          have hpe2 := hpe
          simp only [Bool.and_eq_true, beq_iff_eq, Bool.not_eq_true'] at hpe2
          obtain ⟨⟨hd, hn⟩, hsn⟩ := hpe2
          rcases @autoStep_main_shape t cm cs sa e g dt hsn hcm with
            ⟨slot2, gg1, tt1, heq, hday, hslot, m, rest2, hm1, hids, hlen, hsides, hcal⟩
          rw [heq] at hstep
          injection hstep with h5
          have h6 : some slot2 = opt := congrArg (fun p => p.1) h5
          cases opt with
          | none => simp at h6
          | some s0 =>
            injection h6 with h7
            injection h with h1
            have hslots : s0 :: tail = slots := congrArg (fun p => p.1) h1
            rw [← hslots]
            have hmatch : slotMatches cm d name s0 = true := by
              unfold slotMatches
              rw [← h7]
              have hb1 : (slot2.day == d) = true := by
                rw [hday, hd]
                simp
              have hb2 : (slot2.slot == name) = true := by
                rw [hslot, hn]
                simp
              rw [hids, hb1, hb2]
              simp only [Bool.and_eq_true, List.any_eq_true]
              exact ⟨⟨trivial, trivial⟩, ⟨m, hm1, by simp⟩⟩
            rw [List.countP_cons_of_pos _ _ (by simpa using hpe),
              List.countP_cons_of_pos _ _ hmatch]
            omega

theorem sample_ok_spec [Inhabited α] {g g2 : Nat} {l chosen : List α} {k : Int}
    (h : sample g l k = Except.ok (chosen, g2)) :
    chosen.length = k.toNat ∧ ∀ x ∈ chosen, x ∈ l := by
  unfold sample at h
  split at h
  · simp at h
  · next hguard =>
    have hk : k.toNat ≤ l.length := by
      push_neg at hguard
      omega
    injection h with h1
    have h2 : (sampleGo k.toNat g l).1 = chosen := congrArg Prod.fst h1
    constructor
    · rw [← h2]
      exact sampleGo_length _ _ _ hk
    · intro x hx
      rw [← h2] at hx
      exact sampleGo_mem _ _ _ hk x hx

theorem build_auto_ok_parts {cards : List RecipeCard} {targets : Targets} {seed : Int}
    {slots : List MealSlot}
    (h : build_auto_week_plan cards targets seed = Except.ok slots) :
    ∃ cm cs g g2 t2,
      autoLoop targets cm cs (autoSnacksAll cards) (generate_week_slots targets) g
        (fun _ => 0) = Except.ok (slots, g2, t2) ∧
      cm ≠ [] ∧ (∀ m ∈ cm, m ∈ autoMainsAll cards) ∧
      (∀ c ∈ cs, c ∈ autoSidesAll cards) := by
  unfold build_auto_week_plan at h
  dsimp only at h
  rw [if_neg (by
    rw [List.isEmpty_eq_false.mpr (generate_week_slots_ne_nil targets)]
    simp)] at h
  by_cases hm : (autoMainsAll cards).isEmpty = true
  · rw [if_pos hm] at h
    simp at h
  · rw [if_neg hm] at h
    cases hrand : randint (rngInit seed) (autoMinU targets)
        (autoMaxU targets ((autoMainsAll cards).length + (autoSidesAll cards).length)) with
    | error err => rw [hrand] at h; simp at h
    | ok pr =>
      obtain ⟨n, g1⟩ := pr
      rw [hrand] at h
      dsimp only at h
      cases hsamp : sample g1 (autoMainsAll cards)
          (max 1 (min ((autoMainsAll cards).length : Int) n)) with
      | error err => rw [hsamp] at h; simp at h
      | ok pr2 =>
        obtain ⟨cm, g2⟩ := pr2
        rw [hsamp] at h
        dsimp only at h
        rcases sample_ok_spec hsamp with ⟨hcmlen, hcmsub⟩
        have hcmne : cm ≠ [] := by
          intro hc
          rw [hc] at hcmlen
          simp at hcmlen
          omega
        by_cases hse : (autoSidesAll cards).isEmpty = true
        · rw [if_pos hse] at h
          dsimp only at h
          cases hloop : autoLoop targets cm [] (autoSnacksAll cards)
              (generate_week_slots targets) g2 (fun _ => 0) with
          | error err => rw [hloop] at h; simp at h
          | ok res =>
            obtain ⟨slots2, gg, tt⟩ := res
            rw [hloop] at h
            dsimp only at h
            injection h with h1
            exact ⟨cm, [], g2, gg, tt, h1 ▸ hloop, hcmne, hcmsub, by simp⟩
        · rw [if_neg hse] at h
          cases hrand2 : randint g2 1
              (min ((autoSidesAll cards).length : Int)
                (max 1 (2 * max 1 (min ((autoMainsAll cards).length : Int) n)))) with
          | error err => rw [hrand2] at h; simp at h
          | ok pr3 =>
            obtain ⟨ns, g3⟩ := pr3
            rw [hrand2] at h
            dsimp only at h
            cases hsamp2 : sample g3 (autoSidesAll cards) ns with
            | error err => rw [hsamp2] at h; simp at h
            | ok pr4 =>
              obtain ⟨cs, g4⟩ := pr4
              rw [hsamp2] at h
              dsimp only at h
              rcases sample_ok_spec hsamp2 with ⟨_, hcssub⟩
              cases hloop : autoLoop targets cm cs (autoSnacksAll cards)
                  (generate_week_slots targets) g4 (fun _ => 0) with
              | error err => rw [hloop] at h; simp at h
              | ok res =>
                obtain ⟨slots2, gg, tt⟩ := res
                rw [hloop] at h
                dsimp only at h
                injection h with h1
                exact ⟨cm, cs, g4, gg, tt, h1 ▸ hloop, hcmne, hcmsub, hcssub⟩

/-! ## C3 amended, C4 and C10 -/

/-- C3 amended: in every plan of either mode, every slot's component list
is 1-3 ids whose first id is a card from the main pool (role main or both
in manual mode, the eligible-mains filter in automatic mode) followed by at
most two ids from the side pool (role side or both, respectively the
eligible-sides filter); automatic snack slots carry exactly one id of a
snack-eligible card.  The original "exactly one id whose role supports
main" is false — a role-`both` card enters both pools (see the
counterexample) — so the claim is amended to this head/tail form. -/
theorem claim3_amended :
    (∀ (sel : List (String × Int)) (cards : List RecipeCard) (seed : Int)
       (plan : List MealSlot),
      build_week_plan_manual sel cards seed = Except.ok plan →
      ∀ s ∈ plan, ∃ mid rest, s.card_ids = mid :: rest ∧
        mainRoleOk cards mid = true ∧ rest.length ≤ 2 ∧
        (∀ sid ∈ rest, sideRoleOk cards sid = true))
    ∧ (∀ (cards : List RecipeCard) (targets : Targets) (seed : Int)
        (plan : List MealSlot),
      build_auto_week_plan cards targets seed = Except.ok plan →
      ∀ s ∈ plan,
        (∃ mid rest, s.card_ids = mid :: rest ∧
          (∃ m, m ∈ autoMainsAll cards ∧ m.id = mid) ∧ rest.length ≤ 2 ∧
          (∀ sid ∈ rest, ∃ c, c ∈ autoSidesAll cards ∧ c.id = sid))
        ∨ (∃ c, c ∈ autoSnacksAll cards ∧ s.card_ids = [c.id])) := by
  constructor
  · intro sel cards seed plan h s hs
    unfold build_week_plan_manual at h
    dsimp only at h
    by_cases hp : (manualPools sel cards).1.isEmpty = true
    · rw [if_pos hp] at h
      simp at h
    · rw [if_neg hp] at h
      injection h with h1
      have hpne : (manualPools sel cards).1 ≠ [] := by
        intro hc
        exact hp (by simp [hc])
      have hmpne : (shuffle (rngInit seed) (manualPools sel cards).1).1 ≠ [] :=
        shuffle_ne_nil hpne
      rw [← h1] at hs
      rcases manualSlots_shape cards _ _ hmpne 14 0 0 s hs with
        ⟨mid, rest, hids, hmidmem, hlen, hrest, _⟩
      refine ⟨mid, rest, hids, ?_, hlen, ?_⟩
      · exact manualPools_main_role (shuffle_subset hmidmem)
      · intro sid hsid
        exact manualPools_side_role (shuffle_subset (hrest sid hsid))
  · intro cards targets seed plan h s hs
    rcases build_auto_ok_parts h with ⟨cm, cs, g, g2, t2, hloop, hcmne, hcmsub, hcssub⟩
    rcases autoLoop_shape hcmne _ g _ plan g2 t2 hloop s hs with hmain | hsnack
    · rcases hmain with ⟨mid, rest, hids, ⟨m, hm, hmid⟩, hlen, hsides, _⟩
      refine Or.inl ⟨mid, rest, hids, ⟨m, hcmsub m hm, hmid⟩, hlen, ?_⟩
      intro sid hsid
      rcases hsides sid hsid with ⟨c, hc, hcid⟩
      exact ⟨c, hcssub c hc, hcid⟩
    · exact Or.inr hsnack

/-- C3 witness: the amended claim instantiated on the end-to-end example
plan (slot `[A, B, B]`: the head has a main role, both tail ids side roles). -/
theorem claim3_witness :
    ∃ mid rest, (c5plan.headD default).card_ids = mid :: rest ∧
      mainRoleOk exCardsAB mid = true ∧ rest.length ≤ 2 ∧
      (∀ sid ∈ rest, sideRoleOk exCardsAB sid = true) :=
  claim3_amended.1 exSelAB exCardsAB 0 c5plan (by decide)
    (c5plan.headD default) (by decide)

/-- C4: the side acceptance rule.  (1) The manual rule's two written
branches (`cal < 450` and its `else`) are the same test `newCal ≤ 800`;
(2) the automatic meal-band test is likewise `newCal ≤ 800` whenever the
running meal total is at most 800 (which the 250-800 mains filter
guarantees); (3, 4) consequently, in both modes a slot whose final
calories exceed 800 kcal carries its main alone — side attachment never
pushes a slot's total above 800 kcal. -/
theorem claim4_side_cap :
    (∀ cal newCal : ℚ, manualSideAccept cal newCal = decide (newCal ≤ 800))
    ∧ (∀ cal newCal : ℚ, cal ≤ 800 →
        autoWithinMealBand cal newCal = decide (newCal ≤ 800))
    ∧ (∀ (sel : List (String × Int)) (cards : List RecipeCard) (seed : Int)
        (plan : List MealSlot),
        build_week_plan_manual sel cards seed = Except.ok plan →
        ∀ s ∈ plan, 800 < s.calories → s.card_ids.length = 1)
    ∧ (∀ (cards : List RecipeCard) (targets : Targets) (seed : Int)
        (plan : List MealSlot),
        build_auto_week_plan cards targets seed = Except.ok plan →
        ∀ s ∈ plan, 800 < s.calories → s.card_ids.length = 1) := by
  refine ⟨manualSideAccept_eq, ?_, ?_, ?_⟩
  · intro cal newCal hcal
    unfold autoWithinMealBand
    by_cases h45 : cal < 450
    · have h45' : decide (cal < 450) = true := decide_eq_true h45
      have h45n : decide (450 ≤ cal) = false := by
        simp [not_le.mpr h45]
      rw [h45', h45n]
      cases hd : decide (newCal ≤ 800) <;> simp
    · have h45' : decide (cal < 450) = false := by
        simp [not_lt.mp h45]
      have h45n : decide (450 ≤ cal) = true := decide_eq_true (not_lt.mp h45)
      have h8 : decide (cal ≤ 800) = true := decide_eq_true hcal
      rw [h45', h45n, h8]
      cases hd : decide (newCal ≤ 800) <;> simp
  · intro sel cards seed plan h s hs hcal
    unfold build_week_plan_manual at h
    dsimp only at h
    by_cases hp : (manualPools sel cards).1.isEmpty = true
    · rw [if_pos hp] at h
      simp at h
    · rw [if_neg hp] at h
      injection h with h1
      have hpne : (manualPools sel cards).1 ≠ [] := by
        intro hc
        exact hp (by simp [hc])
      have hmpne : (shuffle (rngInit seed) (manualPools sel cards).1).1 ≠ [] :=
        shuffle_ne_nil hpne
      rw [← h1] at hs
      rcases manualSlots_shape cards _ _ hmpne 14 0 0 s hs with
        ⟨mid, rest, hids, _, _, _, hcalr⟩
      rw [hids, hcalr hcal]
      rfl
  · intro cards targets seed plan h s hs hcal
    rcases build_auto_ok_parts h with ⟨cm, cs, g, g2, t2, hloop, hcmne, _, _⟩
    rcases autoLoop_shape hcmne _ g _ plan g2 t2 hloop s hs with hmain | hsnack
    · rcases hmain with ⟨mid, rest, hids, _, _, _, hcalr⟩
      rw [hids, hcalr hcal]
      rfl
    · rcases hsnack with ⟨c, _, hids⟩
      rw [hids]
      rfl

/-- C4 witness: the acceptance-rule identities at concrete calorie values,
and a concrete manual plan whose 900-kcal slots carry the main alone. -/
theorem claim4_witness :
    manualSideAccept 500 900 = decide ((900 : ℚ) ≤ 800) ∧
    autoWithinMealBand 500 600 = decide ((600 : ℚ) ≤ 800) ∧
    (c4plan.headD default).card_ids.length = 1 :=
  ⟨claim4_side_cap.1 500 900,
   claim4_side_cap.2.1 500 600 (by norm_num),
   claim4_side_cap.2.2.1 c4sel c4cards 0 c4plan (by decide)
     (c4plan.headD default) (by decide) (by decide)⟩

/-- C10: every scheduled non-snack slot receives a main and is never
skipped.  (1) For a non-empty chosen-mains list, `choose_main_for_slot`
always succeeds and returns one of the chosen mains (in particular, when no
chosen main supports the slot's label it falls back to the whole list);
(2) when no candidate keeps the day at or below `calories_max`, the
returned main is a compatible candidate with the fewest calories per
serving; (3) for every successful automatic build and every `(day, label)`
pair, the plan holds at least as many slots at that day and label whose
first component id is an eligible main as the weekly schedule has non-snack
entries for that pair. -/
theorem claim10_nonsnack_always_main :
    (∀ (g : Nat) (mains : List RecipeCard) (sn : String) (dc : ℚ) (t : Targets),
      mains ≠ [] →
      ∃ m g2, choose_main_for_slot g mains sn dc t = Except.ok (m, g2) ∧ m ∈ mains)
    ∧ (∀ (g : Nat) (mains : List RecipeCard) (sn : String) (dc : ℚ) (t : Targets),
      mains ≠ [] → (withinMains t dc (compatMains mains sn)).isEmpty = true →
      ∃ m, choose_main_for_slot g mains sn dc t = Except.ok (m, g) ∧
        m ∈ compatMains mains sn ∧
        ∀ y ∈ compatMains mains sn,
          m.macros_per_serving.calories ≤ y.macros_per_serving.calories)
    ∧ (∀ (cards : List RecipeCard) (targets : Targets) (seed : Int)
        (plan : List MealSlot),
      build_auto_week_plan cards targets seed = Except.ok plan →
      ∀ (d : Nat) (name : String),
        (generate_week_slots targets).countP
            (fun e => e.1 == d && e.2.1 == name && !e.2.2) ≤
          plan.countP (slotMatches (autoMainsAll cards) d name)) := by
  refine ⟨fun g mains sn dc t h => choose_main_ok h, ?_, ?_⟩
  · intro g mains sn dc t h hw
    rcases minByCalories_spec (compatMains_ne_nil h) with ⟨m, hm, hmem, hmin⟩
    refine ⟨m, ?_, hmem, hmin⟩
    unfold choose_main_for_slot
    dsimp only
    rw [if_pos hw, hm]
  · intro cards targets seed plan h d name
    rcases build_auto_ok_parts h with ⟨cm, cs, g, g2, t2, hloop, hcmne, hcmsub, _⟩
    calc (generate_week_slots targets).countP
          (fun e => e.1 == d && e.2.1 == name && !e.2.2)
        ≤ plan.countP (slotMatches cm d name) :=
          autoLoop_count hcmne d name _ g _ plan g2 t2 hloop
      _ ≤ plan.countP (slotMatches (autoMainsAll cards) d name) := by
          refine List.countP_mono_left ?_
          intro s _ hsm
          unfold slotMatches at hsm ⊢
          rcases Bool.and_eq_true_iff.mp hsm with ⟨h1, h2⟩
          rw [h1]
          simp only [Bool.true_and]
          cases hids : s.card_ids with
          | nil => rw [hids] at h2; simp at h2
          | cons mid tl =>
            rw [hids] at h2
            rcases List.any_eq_true.mp h2 with ⟨m, hm, hbeq⟩
            exact List.any_eq_true.mpr ⟨m, hcmsub m hm, hbeq⟩

/-- C10 witness: a concrete choose-main success, and the coverage bound
instantiated on a concrete successful automatic run for (day 0, Lunch). -/
theorem claim10_witness :
    (∃ m g2, choose_main_for_slot 0 [exMainM] "Lunch" 0 exTargetsOne
        = Except.ok (m, g2) ∧ m ∈ [exMainM]) ∧
    (generate_week_slots exTargetsOne).countP
        (fun e => e.1 == 0 && e.2.1 == "Lunch" && !e.2.2) ≤
      w1plan.countP (slotMatches (autoMainsAll w1cards) 0 "Lunch") :=
  ⟨claim10_nonsnack_always_main.1 0 [exMainM] "Lunch" 0 exTargetsOne (by simp),
   claim10_nonsnack_always_main.2.2 w1cards exTargetsOne 5 w1plan (by decide) 0 "Lunch"⟩

/-! ## C6 amended -/

/-- C6 amended: only the upper randint bound is clamped to
`totalEligibleCount` (after being raised to at least the lower bound); the
lower bound is clamped to at least 1 but not to the pool size.  When the
lower bound exceeds the clamped upper bound — exactly the case
`minUniqueMainMeals > totalEligibleCount` of the original claim — automatic
planning fails with the empty-randint-range error and no plan is produced.
Otherwise `n_unique` is drawn uniformly from `[autoMinU, autoMaxU]` (so
`1 ≤ n_unique ≤ totalEligibleCount`), and the number of distinct mains then
sampled without replacement is `max 1 (min #eligibleMains n_unique)`, a
subset of the eligible mains of that exact size. -/
theorem claim6_amended (cards : List RecipeCard) (targets : Targets) (seed : Int)
    (hm : autoMainsAll cards ≠ []) :
    (autoMaxU targets ((autoMainsAll cards).length + (autoSidesAll cards).length)
        < autoMinU targets →
      build_auto_week_plan cards targets seed = Except.error PyErr.emptyRandRange)
    ∧ (autoMinU targets ≤
        autoMaxU targets ((autoMainsAll cards).length + (autoSidesAll cards).length) →
      ∃ n g1, randint (rngInit seed) (autoMinU targets)
          (autoMaxU targets ((autoMainsAll cards).length + (autoSidesAll cards).length))
          = Except.ok (n, g1) ∧
        autoMinU targets ≤ n ∧
        n ≤ autoMaxU targets ((autoMainsAll cards).length + (autoSidesAll cards).length) ∧
        1 ≤ n ∧
        n ≤ (((autoMainsAll cards).length + (autoSidesAll cards).length : Nat) : Int) ∧
        ∃ chosen g2, sample g1 (autoMainsAll cards)
            (max 1 (min ((autoMainsAll cards).length : Int) n)) = Except.ok (chosen, g2) ∧
          chosen.length = (max 1 (min ((autoMainsAll cards).length : Int) n)).toNat ∧
          ∀ m ∈ chosen, m ∈ autoMainsAll cards) := by
  have hmlen : 1 ≤ (autoMainsAll cards).length := by
    cases hc : autoMainsAll cards with
    | nil => exact absurd hc hm
    | cons a as => simp
  constructor
  · intro hlt
    unfold build_auto_week_plan
    dsimp only
    rw [if_neg (by
      rw [List.isEmpty_eq_false.mpr (generate_week_slots_ne_nil targets)]
      simp)]
    rw [if_neg (by
      rw [List.isEmpty_eq_false.mpr hm]
      simp)]
    rw [show randint (rngInit seed) (autoMinU targets)
        (autoMaxU targets ((autoMainsAll cards).length + (autoSidesAll cards).length))
        = Except.error PyErr.emptyRandRange from by
      unfold randint
      rw [if_pos hlt]]
  · intro hle
    have hnotlt : ¬ (autoMaxU targets
        ((autoMainsAll cards).length + (autoSidesAll cards).length) < autoMinU targets) :=
      not_lt.mpr hle
    set a := autoMinU targets with ha
    set b := autoMaxU targets ((autoMainsAll cards).length + (autoSidesAll cards).length)
      with hb
    have hrand : randint (rngInit seed) a b =
        Except.ok (a + ((randBelow (rngInit seed) (b - a + 1).toNat).1 : Int),
          (randBelow (rngInit seed) (b - a + 1).toNat).2) := by
      unfold randint
      rw [if_neg hnotlt]
    have hbound : (randBelow (rngInit seed) (b - a + 1).toNat).1 < (b - a + 1).toNat := by
      refine randBelow_lt ?_
      omega
    set n := a + ((randBelow (rngInit seed) (b - a + 1).toNat).1 : Int) with hn
    have ha1 : 1 ≤ a := by
      rw [ha]
      unfold autoMinU
      omega
    have hna : a ≤ n := by
      rw [hn]
      omega
    have hnb : n ≤ b := by
      rw [hn]
      omega
    have hbtot : b ≤ (((autoMainsAll cards).length + (autoSidesAll cards).length : Nat) : Int) := by
      rw [hb]
      unfold autoMaxU
      dsimp only
      rw [if_pos (by omega)]
      push_cast
      omega
    have hk1 : (1 : Int) ≤ max 1 (min ((autoMainsAll cards).length : Int) n) := le_max_left 1 _
    have hklen : max 1 (min ((autoMainsAll cards).length : Int) n)
        ≤ ((autoMainsAll cards).length : Int) := by
      have h1 : min ((autoMainsAll cards).length : Int) n
          ≤ ((autoMainsAll cards).length : Int) := min_le_left _ _
      have h2 : (1 : Int) ≤ ((autoMainsAll cards).length : Int) := by
        exact_mod_cast hmlen
      omega
    refine ⟨n, (randBelow (rngInit seed) (b - a + 1).toNat).2, hrand, hna, hnb,
      le_trans ha1 hna, le_trans hnb hbtot, ?_⟩
    have hsampeq : sample (randBelow (rngInit seed) (b - a + 1).toNat).2
        (autoMainsAll cards) (max 1 (min ((autoMainsAll cards).length : Int) n)) =
        Except.ok (sampleGo (max 1 (min ((autoMainsAll cards).length : Int) n)).toNat
          (randBelow (rngInit seed) (b - a + 1).toNat).2 (autoMainsAll cards)) := by
      unfold sample
      rw [if_neg (by
        push_neg
        constructor
        · omega
        · exact hklen)]
    refine ⟨_, _, hsampeq, ?_, ?_⟩
    · exact sampleGo_length _ _ _ (by omega)
    · intro m hmm
      exact sampleGo_mem _ _ _ (by omega) m hmm

/-- C6 witness: with one eligible main and a pinned unique count of 1, the
bounds agree and the amended claim yields a successful draw and sample. -/
theorem claim6_witness :
    ∃ n g1, randint (rngInit 5) (autoMinU exTargetsOne)
        (autoMaxU exTargetsOne ((autoMainsAll w1cards).length + (autoSidesAll w1cards).length))
        = Except.ok (n, g1) ∧
      autoMinU exTargetsOne ≤ n ∧
      n ≤ autoMaxU exTargetsOne
        ((autoMainsAll w1cards).length + (autoSidesAll w1cards).length) ∧
      1 ≤ n ∧
      n ≤ (((autoMainsAll w1cards).length + (autoSidesAll w1cards).length : Nat) : Int) ∧
      ∃ chosen g2, sample g1 (autoMainsAll w1cards)
          (max 1 (min ((autoMainsAll w1cards).length : Int) n)) = Except.ok (chosen, g2) ∧
        chosen.length = (max 1 (min ((autoMainsAll w1cards).length : Int) n)).toNat ∧
        ∀ m ∈ chosen, m ∈ autoMainsAll w1cards :=
  (claim6_amended w1cards exTargetsOne 5 (by decide)).2 (by decide)

/-! ## C7 amended -/

theorem findCardE_error {cards : List RecipeCard} {cid : String} {e : PyErr}
    (h : findCardE cards cid = Except.error e) : e = PyErr.keyError cid := by
  unfold findCardE at h
  split at h
  · simp at h
  · exact (Except.error.inj h).symm

theorem byItemFoldlM_error (cards : List RecipeCard) :
    ∀ (l : List (String × Nat)) (acc : List ((String × String) × GroceryRow)) (e : PyErr),
      (l.foldlM (fun m p =>
        match findCardE cards p.1 with
        | Except.error e => Except.error e
        | Except.ok card =>
          if card.servings_default = 0 then Except.error PyErr.zeroDivision
          else Except.ok (cardContribution m card (qDiv ((p.2 : Nat) : ℚ)
            ((card.servings_default : Int) : ℚ)))) acc) = Except.error e →
      (∃ k, e = PyErr.keyError k) ∨ e = PyErr.zeroDivision := by
  intro l
  induction l with
  | nil =>
    intro acc e h
    exact Except.noConfusion (show Except.ok acc = Except.error e from h)
  | cons p ps ih =>
    intro acc e h
    rw [List.foldlM_cons] at h
    cases hf : findCardE cards p.1 with
    | error e2 =>
      rw [hf] at h
      dsimp only at h
      have he : e2 = e :=
        Except.error.inj (show Except.error e2 = Except.error e from h)
      exact Or.inl ⟨p.1, he ▸ (findCardE_error hf)⟩
    | ok card =>
      rw [hf] at h
      dsimp only at h
      by_cases h0 : card.servings_default = 0
      · rw [if_pos h0] at h
        have he : PyErr.zeroDivision = e :=
          Except.error.inj (show Except.error PyErr.zeroDivision = Except.error e from h)
        exact Or.inr he.symm
      · rw [if_neg h0] at h
        exact ih _ _ h

theorem groceryByItem_error {slots : List MealSlot} {cards : List RecipeCard}
    {e : PyErr} (h : groceryByItem slots cards = Except.error e) :
    (∃ k, e = PyErr.keyError k) ∨ e = PyErr.zeroDivision := by
  unfold groceryByItem at h
  exact byItemFoldlM_error cards _ _ _ h

theorem convert_oz_g (q : ℚ) : convert_qty q "oz" "g" = Except.ok (qMul q OZ_TO_G) := by
  unfold convert_qty
  rw [if_neg (by simp), if_pos ⟨rfl, rfl⟩]

theorem groceryFinalRow_error {meta : List (String × String)} {item : String}
    {units : List (String × ℚ)} {e : PyErr}
    (h : groceryFinalRow meta item units = Except.error e) : e = PyErr.stopIteration := by
  unfold groceryFinalRow at h
  dsimp only at h
  split at h
  · rw [convert_oz_g] at h
    simp at h
  · split at h
    · exact (Except.error.inj h).symm
    · simp at h

theorem groceryFinalRows_error {merged : List (String × List (String × ℚ))}
    {meta : List (String × String)} {e : PyErr}
    (h : groceryFinalRows merged meta = Except.error e) : e = PyErr.stopIteration := by
  unfold groceryFinalRows at h
  revert h
  suffices hgen : ∀ (l : List (String × List (String × ℚ)))
      (acc : List GroceryRow),
      (l.foldlM (fun acc p =>
        match groceryFinalRow meta p.1 p.2 with
        | Except.error e => Except.error e
        | Except.ok r => Except.ok (acc ++ [r])) acc) = Except.error e →
      e = PyErr.stopIteration by
    exact hgen merged []
  intro l
  induction l with
  | nil =>
    intro acc h
    exact Except.noConfusion (show Except.ok acc = Except.error e from h)
  | cons p ps ih =>
    intro acc h
    rw [List.foldlM_cons] at h
    cases hf : groceryFinalRow meta p.1 p.2 with
    | error e2 =>
      rw [hf] at h
      dsimp only at h
      have he : e2 = e :=
        Except.error.inj (show Except.error e2 = Except.error e from h)
      exact he ▸ groceryFinalRow_error hf
    | ok r =>
      rw [hf] at h
      dsimp only at h
      exact ih _ h

/-- C7 amended: the aggregator never raises the spec's `ConversionError` at
all.  An item whose accumulated units include both grams and ounces is
merged through the only `convert_qty` call, `(oz → g)`, which always
succeeds; every other multi-unit item is silently collapsed to its
first-recorded unit, dropping the remaining quantities (see the
counterexample).  `convert_qty` itself succeeds exactly on equal units and
the two g/oz orientations, so the g/oz pair is indeed the only convertible
one — but `aggregate_grocery` never reaches the failing case. -/
theorem claim7_amended :
    (∀ (slots : List MealSlot) (cards : List RecipeCard),
      isErrConversion (aggregate_grocery slots cards) = false)
    ∧ (∀ (q : ℚ) (u1 u2 : String),
      exceptIsOk (convert_qty q u1 u2) =
        decide (u1 = u2 ∨ (u1 = "oz" ∧ u2 = "g") ∨ (u1 = "g" ∧ u2 = "oz"))) := by
  constructor
  · intro slots cards
    unfold aggregate_grocery
    cases hby : groceryByItem slots cards with
    | error e =>
      rcases groceryByItem_error hby with ⟨k, hk⟩ | hk <;> subst hk <;> rfl
    | ok by_item =>
      dsimp only
      cases hfr : groceryFinalRows (groceryMergedMeta by_item).1
          (groceryMergedMeta by_item).2 with
      | error e =>
        have := groceryFinalRows_error hfr
        subst this
        rfl
      | ok rows => rfl
  · intro q u1 u2
    unfold convert_qty
    by_cases h1 : u1 = u2
    · rw [if_pos h1]
      simp [exceptIsOk, h1]
    · rw [if_neg h1]
      by_cases h2 : u1 = "oz" ∧ u2 = "g"
      · rw [if_pos h2]
        simp [exceptIsOk, h1, h2]
      · rw [if_neg h2]
        by_cases h3 : u1 = "g" ∧ u2 = "oz"
        · rw [if_pos h3]
          simp [exceptIsOk, h1, h2, h3]
        · rw [if_neg h3]
          simp [exceptIsOk, h1, h2, h3]

/-! ## C8: the g/oz merge and the single-unit rounding -/

theorem mem_insertRow {a x : GroceryRow} : ∀ {l : List GroceryRow},
    a ∈ insertRow x l ↔ a = x ∨ a ∈ l := by
  intro l
  induction l with
  | nil => simp [insertRow]
  | cons y ys ih =>
    unfold insertRow
    split
    · simp
    · rw [List.mem_cons, ih]
      simp [List.mem_cons]
      tauto

theorem mem_sortRows_go {a : GroceryRow} : ∀ (l acc : List GroceryRow),
    a ∈ l.foldl (fun acc r => insertRow r acc) acc ↔ a ∈ acc ∨ a ∈ l := by
  intro l
  induction l with
  | nil => simp
  | cons x xs ih =>
    intro acc
    rw [List.foldl_cons, ih, mem_insertRow]
    simp [List.mem_cons]
    tauto

theorem mem_sortRows {a : GroceryRow} {l : List GroceryRow} :
    a ∈ sortRows l ↔ a ∈ l := by
  unfold sortRows
  rw [mem_sortRows_go]
  simp

theorem groceryFinalRows_mem {meta : List (String × String)} :
    ∀ (merged : List (String × List (String × ℚ))) (acc rows : List GroceryRow),
      (merged.foldlM (fun acc p =>
        match groceryFinalRow meta p.1 p.2 with
        | Except.error e => Except.error e
        | Except.ok r => Except.ok (acc ++ [r])) acc) = Except.ok rows →
      (∀ r ∈ acc, r ∈ rows) ∧
      ∀ p ∈ merged, ∃ r, groceryFinalRow meta p.1 p.2 = Except.ok r ∧ r ∈ rows := by
  intro merged
  induction merged with
  | nil =>
    intro acc rows h
    have h1 : acc = rows :=
      Except.ok.inj (show Except.ok acc = Except.ok rows from h)
    exact ⟨fun r hr => h1 ▸ hr, by simp⟩
  | cons p ps ih =>
    intro acc rows h
    rw [List.foldlM_cons] at h
    cases hf : groceryFinalRow meta p.1 p.2 with
    | error e2 =>
      rw [hf] at h
      dsimp only at h
      exact Except.noConfusion (show Except.error e2 = Except.ok rows from h)
    | ok r =>
      rw [hf] at h
      dsimp only at h
      rcases ih (acc ++ [r]) rows h with ⟨hacc, hall⟩
      refine ⟨fun r2 hr2 => hacc r2 (by simp [hr2]), ?_⟩
      intro p2 hp2
      rcases List.mem_cons.mp hp2 with h1 | h1
      · subst h1
        exact ⟨r, hf, hacc r (by simp)⟩
      · exact hall p2 h1

theorem groceryFinalRow_both {meta : List (String × String)} {item : String}
    {units : List (String × ℚ)} (hg : unitsHas units "g" = true)
    (ho : unitsHas units "oz" = true) :
    groceryFinalRow meta item units = Except.ok
      { item := item
        qty := pyRound1 (qAdd (unitsGet units "g") (qMul (unitsGet units "oz") OZ_TO_G))
        unit := "g"
        grocery_section := (assocLookup meta item).getD "other" } := by
  unfold groceryFinalRow
  dsimp only
  rw [if_pos (by rw [hg, ho]; rfl), convert_oz_g]

theorem groceryFinalRow_single {meta : List (String × String)} {item : String}
    {u : String} {q : ℚ} :
    groceryFinalRow meta item [(u, q)] = Except.ok
      { item := item
        qty := if u = "g" then ((roundHalfEven q : ℚ))
               else if u = "oz" ∨ u = "tbsp" ∨ u = "tsp" ∨ u = "cup" then pyRound1 q
               else q
        unit := u
        grocery_section := (assocLookup meta item).getD "other" } := by
  unfold groceryFinalRow
  dsimp only
  rw [if_neg ?hc]
  case hc =>
    intro hcon
    rcases Bool.and_eq_true_iff.mp hcon with ⟨hg, ho⟩
    unfold unitsHas at hg ho
    simp at hg ho
    rw [hg] at ho
    exact absurd ho (by decide)

/-- C8: per item, when the accumulated unit map holds both grams and
ounces, the output row is a single gram row whose quantity is the gram
total plus the ounce total times `OZ_TO_G = 28.349523125`, rounded to one
decimal place; when the map holds a single unit, gram totals are rounded to
the nearest integer and oz/tbsp/tsp/cup totals to one decimal place; and
concretely 100 g plus 1 oz aggregates to 128.3 g. -/
theorem claim8_unit_merge :
    (∀ (slots : List MealSlot) (cards : List RecipeCard) (rows : List GroceryRow)
       (by_item : List ((String × String) × GroceryRow)) (item : String)
       (units : List (String × ℚ)),
      aggregate_grocery slots cards = Except.ok rows →
      groceryByItem slots cards = Except.ok by_item →
      (item, units) ∈ (groceryMergedMeta by_item).1 →
      (unitsHas units "g" = true → unitsHas units "oz" = true →
        ({ item := item
           qty := pyRound1 (qAdd (unitsGet units "g") (qMul (unitsGet units "oz") OZ_TO_G))
           unit := "g"
           grocery_section :=
             (assocLookup (groceryMergedMeta by_item).2 item).getD "other" }
          : GroceryRow) ∈ rows) ∧
      (∀ (u : String) (q : ℚ), units = [(u, q)] →
        ({ item := item
           qty := if u = "g" then ((roundHalfEven q : ℚ))
                  else if u = "oz" ∨ u = "tbsp" ∨ u = "tsp" ∨ u = "cup" then pyRound1 q
                  else q
           unit := u
           grocery_section :=
             (assocLookup (groceryMergedMeta by_item).2 item).getD "other" }
          : GroceryRow) ∈ rows))
    ∧ aggregate_grocery [exSlotOf "c8"] [c8card] =
        Except.ok [{ item := "thing", qty := Rat.divInt 1283 10, unit := "g"
                     grocery_section := "pantry" }] := by
  constructor
  · intro slots cards rows by_item item units hagg hby hmem
    unfold aggregate_grocery at hagg
    rw [hby] at hagg
    dsimp only at hagg
    cases hfr : groceryFinalRows (groceryMergedMeta by_item).1
        (groceryMergedMeta by_item).2 with
    | error e => rw [hfr] at hagg; simp at hagg
    | ok frows =>
      rw [hfr] at hagg
      have hrows : sortRows frows = rows :=
        Except.ok.inj (show Except.ok (sortRows frows) = Except.ok rows from hagg)
      unfold groceryFinalRows at hfr
      rcases (groceryFinalRows_mem (groceryMergedMeta by_item).1 [] frows hfr).2
          (item, units) hmem with ⟨r, hr, hrmem⟩
      constructor
      · intro hg ho
        rw [groceryFinalRow_both hg ho] at hr
        have h2 := Except.ok.inj hr
        rw [← hrows, mem_sortRows]
        exact h2 ▸ hrmem
      · intro u q hunits
        subst hunits
        rw [groceryFinalRow_single] at hr
        have h2 := Except.ok.inj hr
        rw [← hrows, mem_sortRows]
        exact h2 ▸ hrmem
  · decide

/-- C8 witness: the universal statement instantiated on the 100 g + 1 oz
fixture (the merged unit map of "thing" holds both grams and ounces). -/
theorem claim8_witness :
    ({ item := "thing"
       qty := pyRound1 (qAdd (unitsGet [("g", 100), ("oz", 1)] "g")
         (qMul (unitsGet [("g", 100), ("oz", 1)] "oz") OZ_TO_G))
       unit := "g"
       grocery_section :=
         (assocLookup [("thing", "pantry")] "thing").getD "other" } : GroceryRow)
      ∈ [({ item := "thing", qty := Rat.divInt 1283 10, unit := "g"
            grocery_section := "pantry" } : GroceryRow)] :=
  (claim8_unit_merge.1 [exSlotOf "c8"] [c8card]
    [{ item := "thing", qty := Rat.divInt 1283 10, unit := "g"
       grocery_section := "pantry" }]
    [(("thing", "g"), { item := "thing", qty := 100, unit := "g"
                        grocery_section := "pantry" }),
     (("thing", "oz"), { item := "thing", qty := 1, unit := "oz"
                         grocery_section := "pantry" })]
    "thing" [("g", 100), ("oz", 1)]
    (by decide) (by decide) (by decide)).1 (by decide) (by decide)

/-! ## C9: the round trip under normalization- and rounding-fixed inputs -/

theorem byItemAdd_fresh {m : List ((String × String) × GroceryRow)}
    {key : String × String} {q : ℚ} {sect : String}
    (h : ∀ p ∈ m, p.1 ≠ key) :
    byItemAdd m key q sect =
      m ++ [(key, { item := key.1, qty := q, unit := key.2
                    grocery_section := sect })] := by
  unfold byItemAdd
  rw [if_neg ?hc]
  case hc =>
    intro hc
    simp only [List.any_eq_true, decide_eq_true_eq] at hc
    obtain ⟨p, hp, he⟩ := hc
    exact h p hp he

theorem cardContribution_map (s : ℚ) :
    ∀ (l : List Ingredient) (m : List ((String × String) × GroceryRow)),
      (∀ ing ∈ l, normalize_key_unit ing.item ing.unit = (ing.item, ing.unit)) →
      (l.map fun i => i.item).Nodup →
      (∀ ing ∈ l, ∀ p ∈ m, p.1.1 ≠ ing.item) →
      l.foldl (fun m ing => byItemAdd m (normalize_key_unit ing.item ing.unit)
          (qMul ing.qty s) ing.grocery_section) m
        = m ++ l.map (fun ing => ((ing.item, ing.unit),
            { item := ing.item, qty := qMul ing.qty s, unit := ing.unit
              grocery_section := ing.grocery_section })) := by
  intro l
  induction l with
  | nil => intro m _ _ _; simp
  | cons ing rest ih =>
    intro m hnorm hnd hfresh
    simp only [List.map_cons, List.nodup_cons] at hnd
    rw [List.foldl_cons, hnorm ing (by simp)]
    rw [byItemAdd_fresh (fun p hp he =>
      hfresh ing (by simp) p hp (by rw [he]))]
    refine (ih (m ++ [((ing.item, ing.unit),
        { item := ing.item, qty := qMul ing.qty s, unit := ing.unit
          grocery_section := ing.grocery_section })])
      (fun i hi => hnorm i (by simp [hi])) hnd.2 ?_).trans ?_
    · intro i hi p hp
      rcases List.mem_append.mp hp with h1 | h1
      · exact hfresh i (by simp [hi]) p h1
      · rw [List.mem_singleton.mp h1]
        intro he
        have h5 : ing.item = i.item := he
        exact hnd.1 (by rw [h5]; exact List.mem_map.mpr ⟨i, hi, rfl⟩)
    · rw [List.append_assoc, List.singleton_append, List.map_cons]

theorem mergedAdd_fresh {m : List (String × List (String × ℚ))}
    {item u : String} {q : ℚ} (h : ∀ p ∈ m, p.1 ≠ item) :
    mergedAdd m item u q = m ++ [(item, [(u, q)])] := by
  unfold mergedAdd
  rw [if_neg ?hc]
  case hc =>
    intro hc
    simp only [List.any_eq_true, decide_eq_true_eq] at hc
    obtain ⟨p, hp, he⟩ := hc
    exact h p hp he

theorem metaSet_fresh {m : List (String × String)} {item sect : String}
    (h : ∀ p ∈ m, p.1 ≠ item) :
    metaSet m item sect = m ++ [(item, sect)] := by
  unfold metaSet
  rw [if_neg ?hc]
  case hc =>
    intro hc
    simp only [List.any_eq_true, decide_eq_true_eq] at hc
    obtain ⟨p, hp, he⟩ := hc
    exact h p hp he

theorem groceryMergedMeta_map :
    ∀ (l : List ((String × String) × GroceryRow))
      (a : List (String × List (String × ℚ))) (b : List (String × String)),
      (l.map fun p => p.1.1).Nodup →
      (∀ p ∈ l, ∀ e ∈ a, e.1 ≠ p.1.1) →
      (∀ p ∈ l, ∀ e ∈ b, e.1 ≠ p.1.1) →
      l.foldl (fun acc p => (mergedAdd acc.1 p.1.1 p.1.2 p.2.qty,
          metaSet acc.2 p.1.1 p.2.grocery_section)) (a, b)
        = (a ++ l.map (fun p => (p.1.1, [(p.1.2, p.2.qty)])),
           b ++ l.map (fun p => (p.1.1, p.2.grocery_section))) := by
  intro l
  induction l with
  | nil => intro a b _ _ _; simp
  | cons p rest ih =>
    intro a b hnd hfa hfb
    simp only [List.map_cons, List.nodup_cons] at hnd
    rw [List.foldl_cons]
    dsimp only
    rw [mergedAdd_fresh (fun e he h2 => hfa p (by simp) e he h2),
        metaSet_fresh (fun e he h2 => hfb p (by simp) e he h2)]
    refine (ih (a ++ [(p.1.1, [(p.1.2, p.2.qty)])])
        (b ++ [(p.1.1, p.2.grocery_section)]) hnd.2 ?_ ?_).trans ?_
    · intro p2 hp2 e he
      rcases List.mem_append.mp he with h1 | h1
      · exact hfa p2 (by simp [hp2]) e h1
      · rw [List.mem_singleton.mp h1]
        intro h3
        have h5 : p.1.1 = p2.1.1 := h3
        exact hnd.1 (by rw [h5]; exact List.mem_map.mpr ⟨p2, hp2, rfl⟩)
    · intro p2 hp2 e he
      rcases List.mem_append.mp he with h1 | h1
      · exact hfb p2 (by simp [hp2]) e h1
      · rw [List.mem_singleton.mp h1]
        intro h3
        have h5 : p.1.1 = p2.1.1 := h3
        exact hnd.1 (by rw [h5]; exact List.mem_map.mpr ⟨p2, hp2, rfl⟩)
    · rw [List.append_assoc, List.singleton_append, List.map_cons,
          List.append_assoc, List.singleton_append, List.map_cons]

theorem groceryMergedMeta_roundtrip {l : List Ingredient}
    (hnd : (l.map fun i => i.item).Nodup) :
    groceryMergedMeta (l.map fun ing => ((ing.item, ing.unit),
        { item := ing.item, qty := ing.qty, unit := ing.unit
          grocery_section := ing.grocery_section }))
      = (l.map fun ing => (ing.item, [(ing.unit, ing.qty)]),
         l.map fun ing => (ing.item, ing.grocery_section)) := by
  unfold groceryMergedMeta
  rw [groceryMergedMeta_map _ [] []
      (by rw [List.map_map]; exact hnd) (by simp) (by simp)]
  simp only [List.map_map, List.nil_append]
  rfl

theorem assocLookup_map_item {ings : List Ingredient} {ing : Ingredient}
    (hnd : (ings.map fun i => i.item).Nodup) (hmem : ing ∈ ings) :
    assocLookup (ings.map fun i => (i.item, i.grocery_section)) ing.item
      = some ing.grocery_section := by
  induction ings with
  | nil => cases hmem
  | cons a l ih =>
    simp only [List.map_cons, List.nodup_cons] at hnd
    rcases List.mem_cons.mp hmem with h | h
    · subst h
      unfold assocLookup
      rw [List.map_cons, List.find?_cons_of_pos _ (by simp)]
      rfl
    · unfold assocLookup
      rw [List.map_cons, List.find?_cons_of_neg _ ?hne]
      case hne =>
        intro hc
        simp only [beq_iff_eq] at hc
        have h5 : a.item = ing.item := hc
        exact hnd.1 (by rw [h5]; exact List.mem_map.mpr ⟨ing, h, rfl⟩)
      exact ih hnd.2 h

theorem groceryFinalRowsGo_map {α : Type} {t : List (String × String)}
    {g : α → String × List (String × ℚ)} {f : α → GroceryRow} :
    ∀ (l : List α) (acc : List GroceryRow),
      (∀ x ∈ l, groceryFinalRow t (g x).1 (g x).2 = Except.ok (f x)) →
      ((l.map g).foldlM (fun acc p =>
        match groceryFinalRow t p.1 p.2 with
        | Except.error e => Except.error e
        | Except.ok r => Except.ok (acc ++ [r])) acc)
        = Except.ok (acc ++ l.map f) := by
  intro l
  induction l with
  | nil => intro acc _; simp; rfl
  | cons x xs ih =>
    intro acc h
    rw [List.map_cons, List.foldlM_cons]
    rw [h x (by simp)]
    refine Eq.trans (ih (acc ++ [f x]) (fun y hy => h y (by simp [hy]))) ?_
    rw [List.append_assoc, List.singleton_append, List.map_cons]

theorem groceryFinalRows_roundtrip {l : List Ingredient}
    (hnd : (l.map fun i => i.item).Nodup)
    (hround : ∀ ing ∈ l,
      (if ing.unit = "g" then ((roundHalfEven ing.qty : ℚ))
       else if ing.unit = "oz" ∨ ing.unit = "tbsp" ∨ ing.unit = "tsp" ∨
                ing.unit = "cup" then pyRound1 ing.qty
       else ing.qty) = ing.qty) :
    groceryFinalRows (l.map fun ing => (ing.item, [(ing.unit, ing.qty)]))
      (l.map fun ing => (ing.item, ing.grocery_section))
      = Except.ok (l.map ingRow) := by
  unfold groceryFinalRows
  have h2 := groceryFinalRowsGo_map
    (t := l.map fun ing => (ing.item, ing.grocery_section))
    (g := fun ing => (ing.item, [(ing.unit, ing.qty)])) (f := ingRow) l [] ?hs
  case hs =>
    intro ing hing
    rw [groceryFinalRow_single]
    rw [hround ing hing, assocLookup_map_item hnd hing]
    rfl
  rw [h2, List.nil_append]

/-- C9 (amended): the round trip holds once the inputs are fixed points of
the aggregator's normalization and rounding — the card is found under its
id, its `servings_default` is positive and the plan uses it exactly
`servings_default` times, each ingredient's item/unit pair is unchanged by
`normalize_key_unit` (already lower-case and trimmed, not "cups"), item
names are pairwise distinct, and each quantity is a fixed point of the
per-unit rounding — and then only up to the final (section, item) sort:
aggregation returns exactly the sort of the raw ingredient rows. -/
theorem claim9_amended :
    ∀ (slots : List MealSlot) (cards : List RecipeCard) (card : RecipeCard),
      findCardE cards card.id = Except.ok card →
      0 < card.servings_default →
      groceryCounts slots = [(card.id, card.servings_default.toNat)] →
      (∀ ing ∈ card.ingredients,
        normalize_key_unit ing.item ing.unit = (ing.item, ing.unit)) →
      (card.ingredients.map fun i => i.item).Nodup →
      (∀ ing ∈ card.ingredients,
        (if ing.unit = "g" then ((roundHalfEven ing.qty : ℚ))
         else if ing.unit = "oz" ∨ ing.unit = "tbsp" ∨ ing.unit = "tsp" ∨
                  ing.unit = "cup" then pyRound1 ing.qty
         else ing.qty) = ing.qty) →
      aggregate_grocery slots cards =
        Except.ok (sortRows (card.ingredients.map ingRow)) := by
  intro slots cards card hfind hsd hcounts hnorm hnd hround
  have hq1 : ∀ q : ℚ, qMul q 1 = q := fun q => by rw [qMul_eq, mul_one]
  have hscale : qDiv (((card.servings_default.toNat : Nat)) : ℚ)
      ((card.servings_default : Int) : ℚ) = 1 := by
    have h1 : ((card.servings_default.toNat : Nat) : ℚ)
        = ((card.servings_default : Int) : ℚ) := by
      rw [← Int.cast_natCast, Int.toNat_of_nonneg hsd.le]
    rw [qDiv_eq, h1, div_self (Int.cast_ne_zero.mpr hsd.ne')]
  have hcc : cardContribution [] card 1
      = card.ingredients.map (fun ing => ((ing.item, ing.unit),
          { item := ing.item, qty := ing.qty, unit := ing.unit
            grocery_section := ing.grocery_section })) := by
    unfold cardContribution
    rw [cardContribution_map 1 card.ingredients [] hnorm hnd (by simp)]
    simp only [hq1, List.nil_append]
  have hby : groceryByItem slots cards
      = Except.ok (card.ingredients.map (fun ing => ((ing.item, ing.unit),
          { item := ing.item, qty := ing.qty, unit := ing.unit
            grocery_section := ing.grocery_section }))) := by
    unfold groceryByItem
    rw [hcounts, List.foldlM_cons]
    dsimp only
    rw [hfind]
    dsimp only
    rw [if_neg hsd.ne', hscale]
    rw [show (Except.ok (cardContribution [] card 1) >>=
        fun m => List.foldlM (fun m p =>
          match findCardE cards p.1 with
          | Except.error e => Except.error e
          | Except.ok card =>
            if card.servings_default = 0 then Except.error PyErr.zeroDivision
            else Except.ok (cardContribution m card
              (qDiv ((p.2 : Nat) : ℚ) ((card.servings_default : Int) : ℚ))))
          m ([] : List (String × Nat)))
      = Except.ok (cardContribution [] card 1) from rfl]
    rw [hcc]
  unfold aggregate_grocery
  rw [hby]
  dsimp only
  rw [groceryMergedMeta_roundtrip hnd]
  dsimp only
  rw [groceryFinalRows_roundtrip hnd hround]

/-- C9 witness: the amended round trip instantiated on a one-ingredient
card (100 g rice, `servings_default` 2) used in two slots. -/
theorem claim9_witness :
    aggregate_grocery
        [exSlotOf "c9w", exSlotOf "c9w"] [c9wcard]
      = Except.ok (sortRows (c9wcard.ingredients.map ingRow)) :=
  claim9_amended [exSlotOf "c9w", exSlotOf "c9w"] [c9wcard] c9wcard
    (by decide) (by decide) (by decide) (by decide) (by decide) (by decide)

end MealPlan
